import Mathlib

/-!
Shallow embedding of `src/server/main.py` (the `PhotoEditorServer` WebSocket
server): the per-connection session state, the receiver and worker loops, the
streaming delivery engine `stream_prompts`, and the template renderer
`get_prompts`, together with theorems checking the specification's claims.

External effects (the Ollama backend, the WebSocket transport, and the
receiver task interleaved at `await` points) are modelled as explicit
environment records consumed at each suspension point of the Python code.
-/

namespace PhotoEditor

/-- `ClientStatusEnum` from the source (the WS client status enumeration). -/
inductive ClientStatusEnum
  | Idle
  | NewTask
  | Interrupt
  | Working
  | Responding
  | Closed
deriving DecidableEq, Repr

/-- The left curly brace character, written via its code point. -/
def lbrace : Char := Char.ofNat 123

/-- The right curly brace character, written via its code point. -/
def rbrace : Char := Char.ofNat 125

/-- `IChatMessage`: one role-tagged chat message. -/
structure IChatMessage where
  role : String
  content : String
  images : Option (List String) := none
deriving DecidableEq, Repr

/-- `IChatPrompt`: a chat prompt template / instruction payload.
The float `temperature` field is carried opaquely by the source and never
read by the code modelled here, so it is omitted. -/
structure IChatPrompt where
  messages : List IChatMessage
  stop : Option (List String) := none
  model : Option String := none
deriving DecidableEq, Repr

/-- The prompt catalog `PhotoEditorServer.prompts`: language key to
(prompt id to prompt) maps, as association lists. -/
abbrev Catalog := List (String × List (String × IChatPrompt))

/-- The built-in English error template (`prompt_error_message['en']`). -/
def err_en : IChatPrompt :=
  { messages :=
      [{ role := "system",
         content := "Generate a message to tell someone that you\x27ve experienced an error." }] }

/-- The built-in Chinese error template (`prompt_error_message['zh']`). -/
def err_zh : IChatPrompt :=
  { messages :=
      [{ role := "system",
         content := "請用正體中文撰寫一句話，告訴對方你正在發生錯誤，請稍後再試。" }] }

/-- `PhotoEditorServer.prompt_error_message`, the fixed class attribute. -/
def prompt_error_message : List (String × IChatPrompt) :=
  [("en", err_en), ("zh", err_zh)]

/-- A character allowed in a substitution token: the class `[a-zA-Z0-9_]`
of the regex on line 190 of the source. -/
def isIdentChar (ch : Char) : Bool :=
  ch.isAlphanum || ch = '_'

/-- Longest prefix of identifier characters, and the rest of the input. -/
def spanIdent : List Char → List Char × List Char
  | [] => ([], [])
  | ch :: rest =>
    if isIdentChar ch then
      let p := spanIdent rest
      (ch :: p.1, p.2)
    else ([], ch :: rest)

/-- Try to read `ident \x7d` (a nonempty identifier followed by a closing
brace) from the input; on success return the identifier and the input
after the closing brace. -/
def takeIdent (l : List Char) : Option (List Char × List Char) :=
  match spanIdent l with
  | ([], _) => none
  | (_ :: _, []) => none
  | (c0 :: ident, c :: r) => if c = rbrace then some (c0 :: ident, r) else none

/-- `replace_content` of the source: the replacement for a matched token is
`data[key]` when present, else the empty string. -/
def lookupData (data : List (String × String)) (ident : List Char) : List Char :=
  match data.lookup (String.mk ident) with
  | some v => v.data
  | none => []

/-- One left-to-right pass of `template.sub(replace_content, content)` where
`template = (?<!\x7b)\x7b[a-zA-Z0-9_]+\x7d(?!\x7d)`: a token is replaced when
it is not immediately preceded (lookbehind on the original text, tracked in
`prev`) or followed by an extra brace.  `fuel` bounds the recursion; it is
instantiated with the input length, which always suffices because every step
consumes at least one input character. -/
def subst_tokens_go (data : List (String × String)) :
    Nat → Option Char → List Char → List Char
  | _, _, [] => []
  | 0, _, l => l
  | fuel + 1, prev, ch :: rest =>
    if ch = lbrace ∧ prev ≠ some lbrace then
      match takeIdent rest with
      | some (ident, rest') =>
        if rest'.head? = some rbrace then
          ch :: subst_tokens_go data fuel (some ch) rest
        else
          lookupData data ident ++ subst_tokens_go data fuel (some rbrace) rest'
      | none => ch :: subst_tokens_go data fuel (some ch) rest
    else
      ch :: subst_tokens_go data fuel (some ch) rest

/-- Token substitution over a character list. -/
def subst_tokens (data : List (String × String)) (l : List Char) : List Char :=
  subst_tokens_go data l.length none l

/-- `re.sub(cc, c, s)` for a doubled character `cc`: collapse every
(non-overlapping, left-to-right) adjacent pair of `c` into a single `c`. -/
def collapse (c : Char) : List Char → List Char
  | [] => []
  | [x] => [x]
  | x :: y :: rest =>
    if x = c ∧ y = c then c :: collapse c rest
    else x :: collapse c (y :: rest)

/-- The content rewrite of `get_prompts`: token substitution first, then
`\x7d\x7d` collapse, then `\x7b\x7b` collapse (source line 199:
`re.sub("\x7b\x7b", "\x7b", re.sub("\x7d\x7d", "\x7d", template.sub(...)))`). -/
def render_content (data : List (String × String)) (s : String) : String :=
  String.mk (collapse lbrace (collapse rbrace (subst_tokens data s.data)))

/-- `PhotoEditorServer.get_prompts`: look the template up under the language
key, fall back to the built-in error template of that language and then to
the English one, deep-copy it, and substitute the data variables into every
message content. -/
def get_prompts (P : Catalog) (lang : String) (prompt_id : String)
    (data : List (String × String)) : IChatPrompt :=
  let prompts :=
    match (P.lookup lang).bind (fun m => m.lookup prompt_id) with
    | some p => p
    | none =>
      match prompt_error_message.lookup lang with
      | some p => p
      | none => err_en
  { prompts with
    messages := prompts.messages.map
      (fun m => { m with content := render_content data m.content }) }

/-- Token substitution leaves a string with no left brace unchanged. -/
theorem subst_tokens_go_id (data : List (String × String)) :
    ∀ (fuel : Nat) (prev : Option Char) (l : List Char), lbrace ∉ l →
      subst_tokens_go data fuel prev l = l := by
  intro fuel
  induction fuel with
  | zero => intro prev l _; cases l <;> rfl
  | succ n ih =>
    intro prev l h
    cases l with
    | nil => rfl
    | cons ch rest =>
      simp only [List.mem_cons, not_or] at h
      have hch : ¬ (ch = lbrace ∧ prev ≠ some lbrace) := by
        intro hc
        exact h.1 hc.1.symm
      simp only [subst_tokens_go, if_neg hch]
      rw [ih (some ch) rest h.2]

/-- Collapsing doubled occurrences of a character leaves a string without
that character unchanged. -/
theorem collapse_id (c : Char) : ∀ l : List Char, c ∉ l → collapse c l = l := by
  intro l
  induction l with
  | nil => intro _; rfl
  | cons x rest ih =>
    intro h
    simp only [List.mem_cons, not_or] at h
    cases rest with
    | nil => rfl
    | cons y r2 =>
      have hx : ¬ (x = c ∧ y = c) := by
        intro hc
        exact h.1 hc.1.symm
      simp only [collapse, if_neg hx]
      rw [ih h.2]

/-- Rendering a brace-free content string is the identity for any data. -/
theorem render_content_id (data : List (String × String)) (s : String)
    (h1 : lbrace ∉ s.data) (h2 : rbrace ∉ s.data) :
    render_content data s = s := by
  unfold render_content subst_tokens
  rw [subst_tokens_go_id data _ _ _ h1, collapse_id _ _ h2, collapse_id _ _ h1]

/-- A one-entry catalog whose template exercises the escape rule. -/
def catalog_c6 : Catalog :=
  [("en",
    [("t",
      { messages :=
          [{ role := "system",
             content := "\x7b\x7ba\x7d\x7d \x7bname\x7d \x7b\x7bb\x7d\x7d" }] })])]

/-- C6: brace doubling is resolved after token substitution, so rendering
`"\x7b\x7ba\x7d\x7d \x7bname\x7d \x7b\x7bb\x7d\x7d"` with `name = "X"` yields
`"\x7ba\x7d X \x7bb\x7d"`; a token immediately preceded or followed by an
extra brace is not substituted; and a substituted variable's own content is
never re-interpreted as a token. -/
theorem c6_brace_doubling_after_substitution :
    (get_prompts catalog_c6 "en" "t" [("name", "X")]).messages
        = [{ role := "system", content := "\x7ba\x7d X \x7bb\x7d" }]
    ∧ render_content [("name", "X")] "\x7b\x7bname\x7d" = "\x7bname\x7d"
    ∧ render_content [("name", "X")] "\x7bname\x7d\x7d" = "\x7bname\x7d"
    ∧ render_content [("name", "\x7bname\x7d")] "\x7bname\x7d" = "\x7bname\x7d" := by
  refine ⟨?_, ?_, ?_, ?_⟩ <;> decide

/-- C7: when the template key is absent under the language key, `get_prompts`
returns the built-in error template of that language, falling back to the
English one for a language with no built-in error template; the fallback is
returned as an ordinary prompt (its messages verbatim, for any data), never
as an error. -/
theorem c7_missing_template_fallback (P : Catalog) (lang prompt_id : String)
    (data : List (String × String))
    (h : (P.lookup lang).bind (fun m => m.lookup prompt_id) = none) :
    (get_prompts P lang prompt_id data).messages
        = ((prompt_error_message.lookup lang).getD err_en).messages
    ∧ (prompt_error_message.lookup lang = none →
        (get_prompts P lang prompt_id data).messages = err_en.messages) := by
  have hen : render_content data
      "Generate a message to tell someone that you\x27ve experienced an error."
      = "Generate a message to tell someone that you\x27ve experienced an error." :=
    render_content_id data _ (by decide) (by decide)
  have hzh : render_content data
      "請用正體中文撰寫一句話，告訴對方你正在發生錯誤，請稍後再試。"
      = "請用正體中文撰寫一句話，告訴對方你正在發生錯誤，請稍後再試。" :=
    render_content_id data _ (by decide) (by decide)
  have hren : ∀ p : IChatPrompt, p = err_en ∨ p = err_zh →
      p.messages.map (fun m => { m with content := render_content data m.content })
        = p.messages := by
    rintro p (rfl | rfl) <;> simp [err_en, err_zh, hen, hzh]
  have hcase : prompt_error_message.lookup lang = some err_en
      ∨ prompt_error_message.lookup lang = some err_zh
      ∨ prompt_error_message.lookup lang = none := by
    simp only [prompt_error_message, List.lookup]
    split
    · exact Or.inl rfl
    · split
      · exact Or.inr (Or.inl rfl)
      · exact Or.inr (Or.inr rfl)
  constructor
  · unfold get_prompts
    rw [h]
    rcases hcase with hc | hc | hc <;> rw [hc] <;> simp only [Option.getD]
    · exact hren err_en (Or.inl rfl)
    · exact hren err_zh (Or.inr rfl)
    · exact hren err_en (Or.inl rfl)
  · intro hnone
    unfold get_prompts
    rw [h, hnone]
    exact hren err_en (Or.inl rfl)

/-- C7 witness. -/
theorem c7_missing_template_fallback_witness :
    (([] : Catalog).lookup "fr").bind (fun m => m.lookup "welcome") = none
    ∧ (get_prompts [] "fr" "welcome" []).messages
        = ((prompt_error_message.lookup "fr").getD err_en).messages :=
  ⟨by decide, (c7_missing_template_fallback [] "fr" "welcome" [] (by decide)).1⟩

/-- The mutable prompt state of a `PhotoEditorServer` instance. -/
structure ServerState where
  prompts : Catalog
deriving DecidableEq

/-- `get_prompts` as a method on the server state.  The source deep-copies
the looked-up template (line 185) before the in-place content writes of the
message loop, so the server's catalog and the class-level
`prompt_error_message` are never written; the state-passing embedding
mirrors this: every write targets the copied value and the state is
returned unchanged. -/
def get_prompts_method (st : ServerState) (lang prompt_id : String)
    (data : List (String × String)) : IChatPrompt × ServerState :=
  (get_prompts st.prompts lang prompt_id data, st)

/-- C8: rendering returns an independent copy: the server state after a
render equals the state before it, and re-rendering the same entry with the
same variables returns the same prompt and again leaves the state (and the
built-in error templates, which are a fixed constant) unchanged. -/
theorem c8_get_prompts_pure (st : ServerState) (lang prompt_id : String)
    (data : List (String × String)) :
    (get_prompts_method st lang prompt_id data).2 = st
    ∧ (get_prompts_method (get_prompts_method st lang prompt_id data).2
        lang prompt_id data).1 = (get_prompts_method st lang prompt_id data).1
    ∧ (get_prompts_method (get_prompts_method st lang prompt_id data).2
        lang prompt_id data).2 = st :=
  ⟨rfl, rfl, rfl⟩

/-- `IClientChatDetails`: the client chat details.  `setup` is modelled as
an association list of numeric editor settings. -/
structure IClientChatDetails where
  page : String
  messages : List IChatMessage
  conversation : Option String := none
  setup : Option (List (String × Int)) := none
deriving DecidableEq, Repr

/-- `IClientData`: the per-connection session record.  The WebSocket handle
is replaced by its `closed` flag, and membership of `self.clients` by
`inClients`; `action` holds the JSON value of the latest inbound action
field in its string form (`none` = Python `None`); the `results` and
`userName` fields of the source are never read by the modelled code and are
omitted. -/
structure IClientData where
  id : Nat := 1
  lang : String := "en"
  action : Option String := none
  status : ClientStatusEnum := .Idle
  chatDetails : Option IClientChatDetails := none
  fileName : Option String := none
  images : Option (List String) := none
  closed : Bool := false
  inClients : Bool := true
deriving DecidableEq, Repr

/-- Role-name tables: language key to (role to display name). -/
abbrev RoleNames := List (String × List (String × String))

/-- The `default_role_names` literal of `get_conversation`. -/
def default_role_names : RoleNames :=
  [("zh", [("user", "使用者"), ("assistant", "斯德 (你)")]),
   ("en", [("user", "User"), ("assistant", "Cindex (You)")])]

/-- The conversation flattening loop of `get_conversation`: each message
becomes `role: ```content``` ` and the lines are joined by newlines. -/
def conversation_string (lang_role_names : List (String × String))
    (msgs : List IChatMessage) : String :=
  String.intercalate "\n" (msgs.map fun m =>
    ((lang_role_names.lookup m.role).getD m.role) ++ ": ```" ++ m.content ++ "```")

/-- `PhotoEditorServer.get_conversation`: returns the cached conversation
string when present, otherwise renders the message history with the role
names of the requested language (falling back to the default English role
names) and caches the result on the chat details. -/
def get_conversation (c : IClientData) (lang : String)
    (role_names : Option RoleNames) : String × IClientData :=
  match c.chatDetails with
  | none => ("", c)
  | some cd =>
    match cd.conversation with
    | some s => (s, c)
    | none =>
      let rn := role_names.getD default_role_names
      let lang_role_names := (rn.lookup lang).getD
        ((default_role_names.lookup "en").getD [])
      let conv := conversation_string lang_role_names cd.messages
      (conv, { c with chatDetails := some { cd with conversation := some conv } })

/-- `PhotoEditorServer.get_last_message`; indexing `messages[-1]` raises on
an empty history. -/
def get_last_message (c : IClientData) : Option String :=
  match c.chatDetails with
  | none => some ""
  | some cd =>
    match cd.messages.getLast? with
    | some m => some m.content
    | none => none

/-- C9: a cached conversation string is returned as-is for any requested
language; consequently the first call fixes the role names, and a second
call with a different language returns the first call's rendering. -/
theorem c9_conversation_cache_ignores_lang :
    (∀ (c : IClientData) (lang : String) (rn : Option RoleNames)
        (cd : IClientChatDetails) (s : String),
      c.chatDetails = some cd → cd.conversation = some s →
      get_conversation c lang rn = (s, c))
    ∧ (∀ (c : IClientData) (cd : IClientChatDetails) (lang1 lang2 : String),
      c.chatDetails = some cd → cd.conversation = none →
      (get_conversation (get_conversation c lang1 none).2 lang2 none).1
          = (get_conversation c lang1 none).1
      ∧ (get_conversation c lang1 none).1
          = conversation_string
              ((default_role_names.lookup lang1).getD
                ((default_role_names.lookup "en").getD []))
              cd.messages) := by
  constructor
  · intro c lang rn cd s h1 h2
    simp only [get_conversation, h1, h2]
  · intro c cd lang1 lang2 h1 h2
    constructor
    · simp only [get_conversation, h1, h2, Option.getD_none]
    · simp only [get_conversation, h1, h2, Option.getD_none]

/-- A session whose chat details already hold a cached conversation. -/
def c9_cached : IClientData :=
  { chatDetails :=
      some { page := "blank", messages := [], conversation := some "cached" } }

/-- A session with one message and no cached conversation. -/
def c9_fresh : IClientData :=
  { chatDetails :=
      some { page := "blank", messages := [{ role := "user", content := "hi" }] } }

/-- C9 witness. -/
theorem c9_conversation_cache_ignores_lang_witness :
    get_conversation c9_cached "zh" none = ("cached", c9_cached)
    ∧ (get_conversation (get_conversation c9_fresh "zh" none).2 "en" none).1
        = (get_conversation c9_fresh "zh" none).1 :=
  ⟨(c9_conversation_cache_ignores_lang.1 c9_cached "zh" none _ "cached" rfl rfl),
   ((c9_conversation_cache_ignores_lang.2 c9_fresh
      { page := "blank", messages := [{ role := "user", content := "hi" }] }
      "zh" "en" rfl rfl).1)⟩

/-- An outbound WebSocket frame.  The payloads of `responseAction` frames
(editor setup, language code) are not inspected by any claim and are
elided; only the action name is kept. -/
inductive Frame
  | responseStart (action : Option String)
  | response (text : String) (action : Option String)
  | responseEnd (action : Option String)
  | responseAction (name : String)
deriving DecidableEq, Repr

/-- An observable event of a worker-side run: a frame handed to the
transport, or a generation request issued to the LLM backend recorded with
the session status at the moment the request starts. -/
inductive Event
  | frame (f : Frame)
  | genCall (status : ClientStatusEnum)
deriving DecidableEq, Repr

deriving instance DecidableEq for Except

/-- A Python exception escaping the modelled code:
`ConnectionError` (non-200 backend response), `ValueError` (raised by
`_response_from_llm` parsing and by handlers), `KeyError` / `IndexError`
(missing dict key / list index), and a non-closure `WebSocketException`
escaping `ensure_ws_send_message`. -/
inductive PyErr
  | connectionError
  | valueError
  | keyError
  | indexError
  | wsException
deriving DecidableEq, Repr

/-- A parsed inbound frame as read by `ws_receiver` (a field is `some`
exactly when the corresponding JSON key is present). -/
structure InFrame where
  lang : Option String := none
  fileName : Option String := none
  images : Option (List String) := none
  action : Option String := none
  details : Option IClientChatDetails := none
deriving DecidableEq, Repr

/-- The body of the `ws_receiver` loop for one parsed frame: set the simple
fields, then store the action and apply the status transition (Working or
Responding becomes Interrupt, anything else becomes NewTask), then replace
the chat details. -/
def recv_frame (c : IClientData) (f : InFrame) : IClientData :=
  let c : IClientData := match f.lang with
    | some l => { c with lang := l }
    | none => c
  let c : IClientData := match f.fileName with
    | some v => { c with fileName := some v }
    | none => c
  let c : IClientData := match f.images with
    | some v => { c with images := some v }
    | none => c
  let c : IClientData := match f.action with
    | some a =>
      let c : IClientData := { c with action := some a }
      if c.status = .Working ∨ c.status = .Responding then
        { c with status := .Interrupt }
      else
        { c with status := .NewTask }
    | none => c
  match f.details with
  | some d => { c with chatDetails := some d }
  | none => c

/-- Receiver activity during one `await` of the worker task: the frames the
receiver processed, in arrival order. -/
def recv_frames (c : IClientData) (fs : List InFrame) : IClientData :=
  fs.foldl recv_frame c

/-- The `ws_receiver` loop over a finite window of inbound messages;
`none` stands for a message that failed JSON decoding and is skipped. -/
def ws_receiver (c : IClientData) (msgs : List (Option InFrame)) : IClientData :=
  msgs.foldl
    (fun c m =>
      match m with
      | some f => recv_frame c f
      | none => c)
    c

/-- The transport's verdict on one raw `client.send` attempt: success,
`ConnectionClosedError`, or another (transient) `WebSocketException`. -/
inductive RawSendResult
  | delivered
  | connClosed
  | wsOther
deriving DecidableEq, Repr

/-- Environment of one `ensure_ws_send_message` call: whether the client is
observed closed at the pre-check, the attempt outcome, and the receiver
frames processed during the send's `await`. -/
structure EnsureEnv where
  closedNow : Bool := false
  attempt : RawSendResult := .delivered
  arrivals : List InFrame := []
deriving DecidableEq, Repr

/-- `PhotoEditorServer.ensure_ws_send_message`: return `false` without
attempting when the client is closed; otherwise one attempt — `true` on
success, `false` on `ConnectionClosedError`, and any other
`WebSocketException` propagates (the source catches only
`ConnectionClosedError`).  The emitted event list holds the frame exactly
when it was handed to the transport. -/
def ensure_ws_send_message (c : IClientData) (env : EnsureEnv) (f : Frame) :
    Except PyErr Bool × IClientData × List Event :=
  let c := { c with closed := c.closed || env.closedNow }
  if c.closed then
    (.ok false, c, [])
  else
    match env.attempt with
    | .delivered => (.ok true, recv_frames c env.arrivals, [.frame f])
    | .connClosed => (.ok false, recv_frames c env.arrivals, [])
    | .wsOther => (.error .wsException, recv_frames c env.arrivals, [])

/-- The `message` field of one streamed chunk: a plain string, a dict with
a `content` entry, or some other value. -/
inductive MessageVal
  | str (s : String)
  | withContent (s : String)
  | other
deriving DecidableEq, Repr

/-- The text-extraction expression of `stream_prompts` (lines 350-352). -/
def chunk_text : MessageVal → Option String
  | .withContent s => some s
  | .str s => some s
  | .other => none

/-- Environment of one iteration of the fragment loop of `stream_prompts`:
receiver frames processed while awaiting the chunk, the transport flags
observed at the loop check, the parsed chunk (`message = none` when the
chunk has no `message` key), and the outcomes of the `responseStart` and
body sends should they happen. -/
structure ChunkEnv where
  arrivals : List InFrame := []
  closedNow : Bool := false
  inClientsNow : Bool := true
  message : Option MessageVal := none
  startSend : EnsureEnv := {}
  bodyAttempt : RawSendResult := .delivered
  bodyArrivals : List InFrame := []
deriving DecidableEq, Repr

/-- One step of the generation stream: a chunk, or the generator raising
(non-200 response or malformed chunk JSON), which propagates out of the
`async for`. -/
inductive ChunkItem
  | chunk (ce : ChunkEnv)
  | genFail (e : PyErr) (arrivals : List InFrame)
deriving DecidableEq, Repr

/-- Environment of one whole `stream_prompts` call. -/
structure StreamEnv where
  chunks : List ChunkItem := []
  tailArrivals : List InFrame := []
  prevSend : EnsureEnv := {}
  endSend : EnsureEnv := {}
deriving DecidableEq, Repr

/-- State update at the head of a fragment iteration: receiver activity
during the chunk's `await`, then the transport flags as observed by the
loop check. -/
def chunk_pre (c : IClientData) (ce : ChunkEnv) : IClientData :=
  let c := recv_frames c ce.arrivals
  { c with closed := c.closed || ce.closedNow,
           inClients := c.inClients && ce.inClientsNow }

/-- The abort condition of line 332: the session is gone, the transport is
closed, or the status is Closed or Interrupt. -/
def abort_check (c : IClientData) : Bool :=
  !c.inClients || c.closed || c.status == ClientStatusEnum.Closed
    || c.status == ClientStatusEnum.Interrupt

/-- Result of the fragment loop of `stream_prompts`: an early `return False`,
normal exhaustion of the stream (carrying the unsent backlog), or an
uncaught exception. -/
inductive LoopOut
  | earlyFalse (c : IClientData) (evs : List Event)
  | done (c : IClientData) (prevMsg : String) (evs : List Event)
  | err (e : PyErr) (c : IClientData) (evs : List Event)
deriving DecidableEq, Repr

/-- Outcome of one iteration of the fragment loop: continue with updated
state and carry, `return False`, or an uncaught exception.  The event list
holds only this iteration's events. -/
inductive StepOut
  | go (c : IClientData) (prevMsg : String) (evs : List Event)
  | halt (c : IClientData) (evs : List Event)
  | raise (e : PyErr) (c : IClientData) (evs : List Event)
deriving DecidableEq, Repr

/-- The text-sending part of one fragment iteration (lines 350-362), after
the `responseStart` handling left the session in state `c` having emitted
`evs1`: extract the text, merge the carry `prev`, and attempt the raw send
(cleared on success, kept on a transient `WebSocketException`, aborting on
`ConnectionClosedError`). -/
def step_text (action : Option String) (ce : ChunkEnv) (c : IClientData)
    (prev : String) (evs1 : List Event) : Option String → StepOut
  | none => .go c prev evs1
  | some t =>
    if t = "" then
      .go c prev evs1
    else
      match ce.bodyAttempt with
      | .delivered =>
        .go (recv_frames c ce.bodyArrivals) ""
          (evs1 ++ [.frame (.response (prev ++ t) action)])
      | .connClosed => .halt (recv_frames c ce.bodyArrivals) evs1
      | .wsOther => .go (recv_frames c ce.bodyArrivals) (prev ++ t) evs1

/-- The `message`-chunk part of one fragment iteration (lines 337-362): the
Working→Responding transition with the `responseStart` send, then the text
send. -/
def step_start (action : Option String) (ce : ChunkEnv) (c : IClientData)
    (prev : String) (mv : MessageVal) : StepOut :=
  match
    (if c.status = .Working then
      ensure_ws_send_message { c with status := .Responding }
        ce.startSend (.responseStart action)
    else
      (.ok true, c, []))
  with
  | (.error e, c, evs1) => .raise e c evs1
  | (.ok false, c, evs1) => .halt c evs1
  | (.ok true, c, evs1) => step_text action ce c prev evs1 (chunk_text mv)

/-- One iteration of the `async for` body of `stream_prompts`
(lines 331-362): apply the receiver/transport activity of the chunk's
`await`, run the abort check of line 332, then process the chunk. -/
def stream_step (action : Option String) (ce : ChunkEnv) (c : IClientData)
    (prev : String) : StepOut :=
  let c := chunk_pre c ce
  if abort_check c then
    .halt c []
  else
    match ce.message with
    | none => .go c prev []
    | some mv => step_start action ce c prev mv

/-- The `async for` loop of `stream_prompts`, iterating `stream_step` and
accumulating the event trace; a generator failure propagates. -/
def stream_loop (action : Option String) :
    List ChunkItem → IClientData → String → List Event → LoopOut
  | [], c, prev, evs => .done c prev evs
  | .genFail e arr :: _, c, _, evs => .err e (recv_frames c arr) evs
  | .chunk ce :: rest, c, prev, evs =>
    match stream_step action ce c prev with
    | .go c' prev' evs' => stream_loop action rest c' prev' (evs ++ evs')
    | .halt c' evs' => .earlyFalse c' (evs ++ evs')
    | .raise e c' evs' => .err e c' (evs ++ evs')

/-- Lines 377-381 of `stream_prompts`: when `flag_idle` is set and the
status is still Working or Responding, return to Idle. -/
def flag_idle_update (fi : Bool) (c : IClientData) : IClientData :=
  if fi ∧ (c.status = .Working ∨ c.status = .Responding) then
    { c with status := .Idle }
  else c

/-- The `responseEnd` part of the tail of `stream_prompts` (lines 371-383),
as a function of the `ensure_ws_send_message` outcome. -/
def stream_tail2 (fi : Bool) (evsAcc : List Event) :
    Except PyErr Bool × IClientData × List Event →
      Except PyErr Bool × IClientData × List Event
  | (.error e, c2, evs2) => (.error e, c2, evsAcc ++ evs2)
  | (.ok false, c2, evs2) => (.ok false, c2, evsAcc ++ evs2)
  | (.ok true, c2, evs2) => (.ok true, flag_idle_update fi c2, evsAcc ++ evs2)

/-- The carry-flush part of the tail of `stream_prompts` (lines 364-375),
as a function of the flush outcome: a failed flush returns False, a
successful one proceeds to the `responseEnd` send. -/
def stream_tail1 (fi : Bool) (action : Option String) (env : StreamEnv)
    (evsL : List Event) :
    Except PyErr Bool × IClientData × List Event →
      Except PyErr Bool × IClientData × List Event
  | (.error e, c1, evs1) => (.error e, c1, evsL ++ evs1)
  | (.ok false, c1, evs1) => (.ok false, c1, evsL ++ evs1)
  | (.ok true, c1, evs1) =>
    stream_tail2 fi (evsL ++ evs1)
      (ensure_ws_send_message c1 env.endSend (.responseEnd action))

/-- `PhotoEditorServer.stream_prompts`: set status to Working, record the
generation request, run the fragment loop, then flush any carried text,
send `responseEnd`, and optionally flag Idle.  Returns the Python return
value (`True`/`False`) or the escaping exception, the session state, and
the trace of events. -/
def stream_prompts (c0 : IClientData) (env : StreamEnv) (flag_idle : Bool)
    (action : Option String) : Except PyErr Bool × IClientData × List Event :=
  let c := { c0 with status := .Working }
  match stream_loop action env.chunks c "" [.genCall .Working] with
  | .err e c evs => (.error e, c, evs)
  | .earlyFalse c evs => (.ok false, c, evs)
  | .done c prev evs =>
    let c := recv_frames c env.tailArrivals
    stream_tail1 flag_idle action env evs
      (if prev = "" then
        ((.ok true : Except PyErr Bool), c, ([] : List Event))
      else
        ensure_ws_send_message c env.prevSend (.response prev action))

/-- Project an event to its frame, if it is one. -/
def frameOf : Event → Option Frame
  | .frame f => some f
  | .genCall _ => none

/-- The frames of an event trace, in order. -/
def framesOf (evs : List Event) : List Frame :=
  evs.filterMap frameOf

/-- Whether a frame is a `responseEnd` framing message. -/
def isEndFrame : Frame → Bool
  | .responseEnd _ => true
  | _ => false

/-- Whether a frame is a `responseStart` framing message. -/
def isStartFrame : Frame → Bool
  | .responseStart _ => true
  | _ => false

/-- Number of `responseEnd` frames in a trace. -/
def countEnd (evs : List Event) : Nat :=
  (framesOf evs).countP (fun f => isEndFrame f)

/-- Number of `responseStart` frames in a trace. -/
def countStart (evs : List Event) : Nat :=
  (framesOf evs).countP (fun f => isStartFrame f)

/-- The event trace of a loop outcome. -/
def LoopOut.evs : LoopOut → List Event
  | .earlyFalse _ e => e
  | .done _ _ e => e
  | .err _ _ e => e

/-- The event trace of a step outcome. -/
def StepOut.evs : StepOut → List Event
  | .go _ _ e => e
  | .halt _ e => e
  | .raise _ _ e => e

theorem framesOf_append (a b : List Event) :
    framesOf (a ++ b) = framesOf a ++ framesOf b := by
  simp [framesOf, List.filterMap_append]

theorem countEnd_append (a b : List Event) :
    countEnd (a ++ b) = countEnd a + countEnd b := by
  simp [countEnd, framesOf_append, List.countP_append]

/-- Exhaustive description of `ensure_ws_send_message`: closed pre-check,
delivered, `ConnectionClosedError`, or escaping `WebSocketException`. -/
theorem ensure_cases (c : IClientData) (env : EnsureEnv) (f : Frame) :
    ensure_ws_send_message c env f
        = (.ok false, { c with closed := c.closed || env.closedNow }, [])
    ∨ ∃ c', ensure_ws_send_message c env f = (.ok true, c', [.frame f])
        ∨ ensure_ws_send_message c env f = (.ok false, c', [])
        ∨ ensure_ws_send_message c env f = (.error .wsException, c', []) := by
  simp only [ensure_ws_send_message]
  split
  · exact Or.inl rfl
  · cases env.attempt
    · exact Or.inr ⟨_, Or.inl rfl⟩
    · exact Or.inr ⟨_, Or.inr (Or.inl rfl)⟩
    · exact Or.inr ⟨_, Or.inr (Or.inr rfl)⟩

/-- `ensure_ws_send_message` emits no frame except the one it was given. -/
theorem ensure_evs (c : IClientData) (env : EnsureEnv) (f : Frame) :
    (ensure_ws_send_message c env f).2.2 = []
    ∨ (ensure_ws_send_message c env f).2.2 = [.frame f] := by
  rcases ensure_cases c env f with h | ⟨c', h | h | h⟩ <;> rw [h]
  · exact Or.inl rfl
  · exact Or.inr rfl
  · exact Or.inl rfl
  · exact Or.inl rfl

theorem ensure_ok_true_evs (c : IClientData) (env : EnsureEnv) (f : Frame)
    (h : (ensure_ws_send_message c env f).1 = .ok true) :
    (ensure_ws_send_message c env f).2.2 = [.frame f] := by
  rcases ensure_cases c env f with hc | ⟨c', hc | hc | hc⟩ <;>
    rw [hc] at h ⊢ <;> simp_all

theorem ensure_ok_false_evs (c : IClientData) (env : EnsureEnv) (f : Frame)
    (h : (ensure_ws_send_message c env f).1 = .ok false) :
    (ensure_ws_send_message c env f).2.2 = [] := by
  rcases ensure_cases c env f with hc | ⟨c', hc | hc | hc⟩ <;>
    (rw [hc] at h ⊢; try simp_all)

/-- When no receiver frame arrives during the send, `ensure_ws_send_message`
changes only the `closed` flag, in particular it preserves the status. -/
theorem ensure_status (c : IClientData) (env : EnsureEnv) (f : Frame)
    (ha : env.arrivals = []) :
    (ensure_ws_send_message c env f).2.1.status = c.status := by
  simp only [ensure_ws_send_message]
  split
  · rfl
  · cases env.attempt <;> simp [ha, recv_frames]

/-- The frames a `step_text` outcome can emit beyond those of `evs1`:
nothing, or one `response` frame. -/
theorem step_text_frames (action : Option String) (ce : ChunkEnv)
    (c : IClientData) (prev : String) (evs1 : List Event) (tOpt : Option String) :
    framesOf (step_text action ce c prev evs1 tOpt).evs = framesOf evs1
    ∨ ∃ t, framesOf (step_text action ce c prev evs1 tOpt).evs
        = framesOf evs1 ++ [.response t action] := by
  cases tOpt with
  | none => exact Or.inl rfl
  | some t =>
    simp only [step_text]
    by_cases ht0 : t = ""
    · rw [if_pos ht0]
      exact Or.inl rfl
    · rw [if_neg ht0]
      cases ce.bodyAttempt
      · exact Or.inr ⟨prev ++ t, by simp [StepOut.evs, framesOf_append, framesOf, frameOf]⟩
      · exact Or.inl rfl
      · exact Or.inl rfl

/-- The frames a single fragment step can emit: nothing, a `responseStart`,
a `response`, or a `responseStart` followed by a `response`. -/
theorem stream_step_frames (action : Option String) (ce : ChunkEnv)
    (c : IClientData) (prev : String) :
    framesOf (stream_step action ce c prev).evs = []
    ∨ framesOf (stream_step action ce c prev).evs = [.responseStart action]
    ∨ (∃ t, framesOf (stream_step action ce c prev).evs = [.response t action])
    ∨ (∃ t, framesOf (stream_step action ce c prev).evs
        = [.responseStart action, .response t action]) := by
  have hstart : ∀ (c1 : IClientData) (mv : MessageVal),
      framesOf (step_start action ce c1 prev mv).evs = []
      ∨ framesOf (step_start action ce c1 prev mv).evs = [.responseStart action]
      ∨ (∃ t, framesOf (step_start action ce c1 prev mv).evs = [.response t action])
      ∨ (∃ t, framesOf (step_start action ce c1 prev mv).evs
          = [.responseStart action, .response t action]) := by
    intro c1 mv
    unfold step_start
    by_cases hw : c1.status = .Working
    · rw [if_pos hw]
      rcases ensure_cases { c1 with status := .Responding } ce.startSend
          (.responseStart action) with hc | ⟨c', hc | hc | hc⟩ <;> rw [hc]
      · exact Or.inl rfl
      · rcases step_text_frames action ce c' prev [.frame (.responseStart action)]
            (chunk_text mv) with h | ⟨t, h⟩
        · exact Or.inr (Or.inl (by simpa [framesOf, frameOf] using h))
        · refine Or.inr (Or.inr (Or.inr ⟨t, ?_⟩))
          simpa [framesOf, frameOf] using h
      · exact Or.inl rfl
      · exact Or.inl rfl
    · rw [if_neg hw]
      rcases step_text_frames action ce c1 prev [] (chunk_text mv) with h | ⟨t, h⟩
      · exact Or.inl (by simpa [framesOf, frameOf] using h)
      · exact Or.inr (Or.inr (Or.inl ⟨t, by simpa [framesOf, frameOf] using h⟩))
  simp only [stream_step]
  split
  · exact Or.inl rfl
  · cases ce.message with
    | none => exact Or.inl rfl
    | some mv => exact hstart (chunk_pre c ce) mv

/-- No step of the fragment loop emits a `responseEnd` frame. -/
theorem stream_step_countEnd (action : Option String) (ce : ChunkEnv)
    (c : IClientData) (prev : String) :
    countEnd (stream_step action ce c prev).evs = 0 := by
  rcases stream_step_frames action ce c prev with h | h | ⟨t, h⟩ | ⟨t, h⟩ <;>
    simp [countEnd, h, isEndFrame]

/-- The fragment loop never emits a `responseEnd` frame. -/
theorem stream_loop_countEnd (action : Option String) :
    ∀ (items : List ChunkItem) (c : IClientData) (prev : String) (evs : List Event),
      countEnd (stream_loop action items c prev evs).evs = countEnd evs := by
  intro items
  induction items with
  | nil => intro c prev evs; rfl
  | cons it rest ih =>
    intro c prev evs
    cases it with
    | genFail e arr => rfl
    | chunk ce =>
      simp only [stream_loop]
      have hstep := stream_step_countEnd action ce c prev
      cases hcs : stream_step action ce c prev with
      | go c' prev' evs' =>
        rw [hcs] at hstep
        simp only [StepOut.evs] at hstep
        rw [ih c' prev' (evs ++ evs'), countEnd_append, hstep]
        omega
      | halt c' evs' =>
        rw [hcs] at hstep
        simp only [StepOut.evs] at hstep
        simp [LoopOut.evs, countEnd_append, hstep]
      | raise e c' evs' =>
        rw [hcs] at hstep
        simp only [StepOut.evs] at hstep
        simp [LoopOut.evs, countEnd_append, hstep]

/-- Quietness of one chunk environment: no receiver frame arrives at any of
its await points. -/
def ChunkEnv.quiet (ce : ChunkEnv) : Prop :=
  ce.arrivals = [] ∧ ce.startSend.arrivals = [] ∧ ce.bodyArrivals = []

/-- Quietness of a stream item. -/
def ChunkItem.quiet : ChunkItem → Prop
  | .chunk ce => ce.quiet
  | .genFail _ _ => True

/-- A stream item that carries no `message` field. -/
def ChunkItem.noMessage : ChunkItem → Prop
  | .chunk ce => ce.message = none
  | .genFail _ _ => False

/-- Quietness of a whole `stream_prompts` environment. -/
def StreamEnv.quiet (env : StreamEnv) : Prop :=
  (∀ it ∈ env.chunks, it.quiet) ∧ env.tailArrivals = []
    ∧ env.prevSend.arrivals = [] ∧ env.endSend.arrivals = []

theorem chunk_pre_status (c : IClientData) (ce : ChunkEnv)
    (h : ce.arrivals = []) : (chunk_pre c ce).status = c.status := by
  simp [chunk_pre, h, recv_frames]

/-- From `Responding`, a quiet fragment step that continues stays
`Responding` and emits at most one `response` frame. -/
theorem stream_step_responding (action : Option String) (ce : ChunkEnv)
    (c : IClientData) (prev : String) (hq : ce.quiet)
    (hs : c.status = .Responding) :
    (∃ c' evs', stream_step action ce c prev = .halt c' evs')
    ∨ (∃ e c' evs', stream_step action ce c prev = .raise e c' evs')
    ∨ (∃ c' prev' evs', stream_step action ce c prev = .go c' prev' evs'
        ∧ c'.status = .Responding
        ∧ (framesOf evs' = [] ∨ ∃ t, framesOf evs' = [.response t action])) := by
  obtain ⟨hq1, _hq2, hq3⟩ := hq
  have hcs : (chunk_pre c ce).status = .Responding := by
    rw [chunk_pre_status c ce hq1, hs]
  simp only [stream_step]
  by_cases hab : abort_check (chunk_pre c ce) = true
  · rw [if_pos hab]
    exact Or.inl ⟨_, _, rfl⟩
  · rw [if_neg hab]
    cases hm : ce.message with
    | none => exact Or.inr (Or.inr ⟨_, _, _, rfl, hcs, Or.inl rfl⟩)
    | some mv =>
      simp only [step_start]
      rw [if_neg (by rw [hcs]; intro hcon; cases hcon)]
      cases ht : chunk_text mv with
      | none => exact Or.inr (Or.inr ⟨_, _, _, rfl, hcs, Or.inl rfl⟩)
      | some t =>
        simp only [step_text]
        by_cases ht0 : t = ""
        · rw [if_pos ht0]
          exact Or.inr (Or.inr ⟨_, _, _, rfl, hcs, Or.inl rfl⟩)
        · rw [if_neg ht0]
          cases ce.bodyAttempt with
          | delivered =>
            refine Or.inr (Or.inr ⟨_, _, _, rfl, ?_, Or.inr ⟨prev ++ t, ?_⟩⟩)
            · rw [hq3]
              exact hcs
            · simp [framesOf, frameOf]
          | connClosed => exact Or.inl ⟨_, _, rfl⟩
          | wsOther =>
            refine Or.inr (Or.inr ⟨_, _, _, rfl, ?_, Or.inl rfl⟩)
            rw [hq3]
            exact hcs

/-- From `Working`, a quiet fragment step halts or raises, continues still
`Working` (only for a chunk without a message, keeping the carry and
emitting nothing), or moves to `Responding` emitting `responseStart` and at
most one `response` frame. -/
theorem stream_step_working (action : Option String) (ce : ChunkEnv)
    (c : IClientData) (prev : String) (hq : ce.quiet)
    (hs : c.status = .Working) :
    (∃ c' evs', stream_step action ce c prev = .halt c' evs')
    ∨ (∃ e c' evs', stream_step action ce c prev = .raise e c' evs')
    ∨ (∃ c' evs', stream_step action ce c prev = .go c' prev evs'
        ∧ c'.status = .Working ∧ framesOf evs' = [] ∧ ce.message = none)
    ∨ (∃ c' prev' evs', stream_step action ce c prev = .go c' prev' evs'
        ∧ c'.status = .Responding
        ∧ (framesOf evs' = [.responseStart action]
           ∨ ∃ t, framesOf evs' = [.responseStart action, .response t action])) := by
  obtain ⟨hq1, hq2, hq3⟩ := hq
  have hcs : (chunk_pre c ce).status = .Working := by
    rw [chunk_pre_status c ce hq1, hs]
  simp only [stream_step]
  by_cases hab : abort_check (chunk_pre c ce) = true
  · rw [if_pos hab]
    exact Or.inl ⟨_, _, rfl⟩
  · rw [if_neg hab]
    cases hm : ce.message with
    | none => exact Or.inr (Or.inr (Or.inl ⟨_, _, rfl, hcs, rfl, rfl⟩))
    | some mv =>
      simp only [step_start]
      rw [if_pos hcs]
      have hstat := ensure_status { chunk_pre c ce with status := .Responding }
        ce.startSend (.responseStart action) hq2
      rcases ensure_cases { chunk_pre c ce with status := .Responding }
          ce.startSend (.responseStart action) with hc | ⟨c2, hc | hc | hc⟩
      · rw [hc]
        exact Or.inl ⟨_, _, rfl⟩
      · rw [hc] at hstat ⊢
        simp only at hstat
        cases ht : chunk_text mv with
        | none =>
          refine Or.inr (Or.inr (Or.inr ⟨_, _, _, rfl, hstat, Or.inl ?_⟩))
          simp [framesOf, frameOf]
        | some t =>
          simp only [step_text]
          by_cases ht0 : t = ""
          · rw [if_pos ht0]
            refine Or.inr (Or.inr (Or.inr ⟨_, _, _, rfl, hstat, Or.inl ?_⟩))
            simp [framesOf, frameOf]
          · rw [if_neg ht0]
            cases ce.bodyAttempt with
            | delivered =>
              refine Or.inr (Or.inr (Or.inr ⟨_, _, _, rfl, ?_, Or.inr ⟨prev ++ t, ?_⟩⟩))
              · rw [hq3]
                exact hstat
              · simp [framesOf, frameOf]
            | connClosed => exact Or.inl ⟨_, _, rfl⟩
            | wsOther =>
              refine Or.inr (Or.inr (Or.inr ⟨_, _, _, rfl, ?_, Or.inl ?_⟩))
              · rw [hq3]
                exact hstat
              · simp [framesOf, frameOf]
      · rw [hc]
        exact Or.inl ⟨_, _, rfl⟩
      · rw [hc]
        exact Or.inr (Or.inl ⟨_, _, _, rfl⟩)

/-- From `Responding`, a quiet fragment loop that exhausts its stream stays
`Responding` and appends only `response` frames to the trace. -/
theorem stream_loop_responding (action : Option String) :
    ∀ (items : List ChunkItem) (c : IClientData) (prev : String) (evs : List Event),
      (∀ it ∈ items, it.quiet) → c.status = .Responding →
      ∀ c' prev' evs', stream_loop action items c prev evs = .done c' prev' evs' →
        c'.status = .Responding
        ∧ ∃ ts : List String,
            framesOf evs' = framesOf evs ++ ts.map (fun t => Frame.response t action) := by
  intro items
  induction items with
  | nil =>
    intro c prev evs _ hs c' prev' evs' hrun
    simp only [stream_loop] at hrun
    injection hrun with h1 h2 h3
    subst h1
    subst h3
    exact ⟨hs, [], by simp⟩
  | cons it rest ih =>
    intro c prev evs hq hs c' prev' evs' hrun
    cases it with
    | genFail e arr =>
      simp only [stream_loop] at hrun
      exact absurd hrun (by simp)
    | chunk ce =>
      simp only [stream_loop] at hrun
      rcases stream_step_responding action ce c prev
          (hq _ (List.mem_cons_self _ _)) hs with
        ⟨c2, evs2, heq⟩ | ⟨e, c2, evs2, heq⟩ | ⟨c2, prev2, evs2, heq, hst, hfr⟩
      · rw [heq] at hrun
        exact absurd hrun (by simp)
      · rw [heq] at hrun
        exact absurd hrun (by simp)
      · rw [heq] at hrun
        obtain ⟨h1, ts, h2⟩ := ih c2 prev2 (evs ++ evs2)
          (fun it hit => hq it (List.mem_cons_of_mem _ hit)) hst c' prev' evs' hrun
        refine ⟨h1, ?_⟩
        rcases hfr with hf | ⟨t, hf⟩
        · exact ⟨ts, by rw [h2, framesOf_append, hf]; simp⟩
        · exact ⟨t :: ts, by rw [h2, framesOf_append, hf]; simp⟩

/-- From `Working`, a quiet fragment loop that exhausts its stream either
saw no message chunk (emitting nothing, keeping state and carry) or moved
to `Responding`, emitting one `responseStart` followed by `response`
frames only. -/
theorem stream_loop_working (action : Option String) :
    ∀ (items : List ChunkItem) (c : IClientData) (prev : String) (evs : List Event),
      (∀ it ∈ items, it.quiet) → c.status = .Working →
      ∀ c' prev' evs', stream_loop action items c prev evs = .done c' prev' evs' →
        (c'.status = .Working ∧ framesOf evs' = framesOf evs ∧ prev' = prev
          ∧ ∀ it ∈ items, ChunkItem.noMessage it)
        ∨ (c'.status = .Responding
          ∧ ∃ ts : List String,
              framesOf evs' = framesOf evs ++ Frame.responseStart action
                :: ts.map (fun t => Frame.response t action)) := by
  intro items
  induction items with
  | nil =>
    intro c prev evs _ hs c' prev' evs' hrun
    simp only [stream_loop] at hrun
    injection hrun with h1 h2 h3
    subst h1
    subst h2
    subst h3
    exact Or.inl ⟨hs, rfl, rfl, by simp⟩
  | cons it rest ih =>
    intro c prev evs hq hs c' prev' evs' hrun
    cases it with
    | genFail e arr =>
      simp only [stream_loop] at hrun
      exact absurd hrun (by simp)
    | chunk ce =>
      simp only [stream_loop] at hrun
      rcases stream_step_working action ce c prev
          (hq _ (List.mem_cons_self _ _)) hs with
        ⟨c2, evs2, heq⟩ | ⟨e, c2, evs2, heq⟩ |
        ⟨c2, evs2, heq, hst, hfr, hmsg⟩ | ⟨c2, prev2, evs2, heq, hst, hfr⟩
      · rw [heq] at hrun
        exact absurd hrun (by simp)
      · rw [heq] at hrun
        exact absurd hrun (by simp)
      · rw [heq] at hrun
        rcases ih c2 prev (evs ++ evs2)
            (fun it hit => hq it (List.mem_cons_of_mem _ hit)) hst c' prev' evs' hrun with
          ⟨h1, h2, h3, h4⟩ | ⟨h1, ts, h2⟩
        · left
          refine ⟨h1, ?_, h3, ?_⟩
          · rw [h2, framesOf_append, hfr, List.append_nil]
          · intro it hit
            rcases List.mem_cons.mp hit with rfl | hit'
            · exact hmsg
            · exact h4 it hit'
        · right
          refine ⟨h1, ts, ?_⟩
          rw [h2, framesOf_append, hfr, List.append_nil]
      · rw [heq] at hrun
        obtain ⟨h1, ts, h2⟩ := stream_loop_responding action rest c2 prev2 (evs ++ evs2)
          (fun it hit => hq it (List.mem_cons_of_mem _ hit)) hst c' prev' evs' hrun
        right
        refine ⟨h1, ?_⟩
        rcases hfr with hf | ⟨t, hf⟩
        · exact ⟨ts, by rw [h2, framesOf_append, hf]; simp⟩
        · exact ⟨t :: ts, by rw [h2, framesOf_append, hf]; simp⟩

/-- A `stream_prompts` call that returns `False` has sent no `responseEnd`
frame: the loop never emits one, a failing flush emits nothing, and a
failing `responseEnd` send means the frame never reached the transport. -/
theorem stream_prompts_false_no_end (c0 : IClientData) (env : StreamEnv)
    (fi : Bool) (action : Option String) (c' : IClientData) (evs : List Event)
    (h : stream_prompts c0 env fi action = (.ok false, c', evs)) :
    countEnd evs = 0 := by
  have hloop := stream_loop_countEnd action env.chunks
    { c0 with status := .Working } "" [.genCall .Working]
  have hz : countEnd [Event.genCall .Working] = 0 := rfl
  rw [hz] at hloop
  simp only [stream_prompts] at h
  cases hL : stream_loop action env.chunks { c0 with status := .Working } ""
      [.genCall .Working] with
  | err e cL evsL =>
    rw [hL] at h
    exact absurd h (by simp)
  | earlyFalse cL evsL =>
    rw [hL] at h
    rw [hL] at hloop
    simp only [LoopOut.evs] at hloop
    simp only [Prod.mk.injEq] at h
    rw [← h.2.2]
    exact hloop
  | done cL prevL evsL =>
    rw [hL] at h
    dsimp only at h
    rw [hL] at hloop
    simp only [LoopOut.evs] at hloop
    have htail : ∀ (s1 : Except PyErr Bool × IClientData × List Event),
        countEnd s1.2.2 = 0 →
        stream_tail1 fi action env evsL s1 = (.ok false, c', evs) →
        countEnd evs = 0 := by
      intro s1 hs1 hmatch
      rcases s1 with ⟨rv1, rc1, revs1⟩
      cases rv1 with
      | error e =>
        simp only [stream_tail1] at hmatch
        exact absurd hmatch (by simp)
      | ok b1 =>
        cases b1 with
        | false =>
          simp only [stream_tail1, Prod.mk.injEq] at hmatch
          rw [← hmatch.2.2, countEnd_append, hloop]
          simpa using hs1
        | true =>
          simp only [stream_tail1] at hmatch
          rcases hend : ensure_ws_send_message rc1 env.endSend
              (.responseEnd action) with ⟨rv2, rc2, revs2⟩
          rw [hend] at hmatch
          cases rv2 with
          | error e =>
            simp only [stream_tail2] at hmatch
            exact absurd hmatch (by simp)
          | ok b2 =>
            cases b2 with
            | false =>
              have hevs2 : revs2 = [] := by
                have h5 := ensure_ok_false_evs rc1 env.endSend (.responseEnd action)
                  (by rw [hend])
                rw [hend] at h5
                exact h5
              simp only [stream_tail2, Prod.mk.injEq] at hmatch
              simp only at hs1
              have hnil : countEnd ([] : List Event) = 0 := rfl
              rw [← hmatch.2.2, hevs2, countEnd_append, countEnd_append, hloop, hs1, hnil]
            | true =>
              simp only [stream_tail2] at hmatch
              exact absurd hmatch (by simp)
    by_cases hp : prevL = ""
    · rw [if_pos hp] at h
      exact htail (.ok true, recv_frames cL env.tailArrivals, []) rfl h
    · rw [if_neg hp] at h
      refine htail _ ?_ h
      rcases ensure_evs (recv_frames cL env.tailArrivals) env.prevSend
          (.response prevL action) with he | he <;> rw [he] <;> rfl

/-- The default session record (a fresh connection: Idle, open, registered). -/
def c_def : IClientData := {}

/-- An inbound frame carrying only an action. -/
def af_x : InFrame := { action := some "X" }

/-- A stream whose single fragment check happens after an action arrived. -/
def env_c2_abort : StreamEnv := { chunks := [.chunk { arrivals := [af_x] }] }

/-- A stream delivering one fragment, with the interrupting action arriving
only after the fragment stream has ended. -/
def env_c2_late : StreamEnv :=
  { chunks := [.chunk { message := some (.withContent "Hello") }],
    tailArrivals := [af_x] }

/-- C2 (amended): when an action arrives while status is Working or
Responding the Receiver sets status to Interrupt; a fragment check of
`stream_prompts` that observes the Interrupt returns False immediately; and
whenever `stream_prompts` returns False it has sent no `responseEnd` frame.
However, an interrupt arriving after the last fragment check is never
observed: the call still sends `responseEnd` and returns True (see the
counterexample). -/
theorem c2_interrupt_abort_semantics :
    (∀ (c : IClientData) (f : InFrame) (a : String),
      (c.status = .Working ∨ c.status = .Responding) → f.action = some a →
      (recv_frame c f).status = .Interrupt)
    ∧ (∀ (action : Option String) (ce : ChunkEnv) (rest : List ChunkItem)
        (c : IClientData) (prev : String) (evs : List Event),
      (chunk_pre c ce).status = .Interrupt →
      stream_loop action (.chunk ce :: rest) c prev evs
        = .earlyFalse (chunk_pre c ce) evs)
    ∧ (∀ (c0 : IClientData) (env : StreamEnv) (fi : Bool) (action : Option String)
        (c' : IClientData) (evs : List Event),
      stream_prompts c0 env fi action = (.ok false, c', evs) →
      countEnd evs = 0) := by
  refine ⟨?_, ?_, ?_⟩
  · intro c f a hst hact
    obtain ⟨fl, ff, fim, fa, fd⟩ := f
    simp only at hact
    subst hact
    rcases hst with h | h <;>
      cases fl <;> cases ff <;> cases fim <;> cases fd <;>
        simp [recv_frame, h]
  · intro action ce rest c prev evs hint
    have hab : abort_check (chunk_pre c ce) = true := by
      simp [abort_check, hint]
    simp only [stream_loop, stream_step, if_pos hab]
    simp
  · exact fun c0 env fi action c' evs h =>
      stream_prompts_false_no_end c0 env fi action c' evs h

/-- C2 witness. -/
theorem c2_interrupt_abort_semantics_witness :
    (recv_frame { c_def with status := .Responding } af_x).status = .Interrupt
    ∧ stream_loop none (.chunk { arrivals := [af_x] } :: [])
        { c_def with status := .Working } "" [.genCall .Working]
        = .earlyFalse (chunk_pre { c_def with status := .Working } { arrivals := [af_x] })
            [.genCall .Working]
    ∧ countEnd [Event.genCall .Working] = 0 :=
  ⟨c2_interrupt_abort_semantics.1 { c_def with status := .Responding } af_x "X"
      (Or.inr rfl) rfl,
   c2_interrupt_abort_semantics.2.1 none { arrivals := [af_x] } []
      { c_def with status := .Working } "" [.genCall .Working] (by decide),
   c2_interrupt_abort_semantics.2.2 c_def env_c2_abort false none
      { c_def with action := some "X", status := .Interrupt } [.genCall .Working]
      (by decide)⟩

/-- C2 counterexample: an action arrives while the status is Responding —
after the last fragment but before the tail of `stream_prompts` — so the
Receiver sets Interrupt, yet `stream_prompts` still sends `responseEnd`
for that generation and returns True, not Aborted. -/
theorem c2_counterexample :
    stream_loop none env_c2_late.chunks { c_def with status := .Working } ""
        [.genCall .Working]
      = .done { c_def with status := .Responding } ""
          [.genCall .Working, .frame (.responseStart none), .frame (.response "Hello" none)]
    ∧ (recv_frame { c_def with status := .Responding } af_x).status = .Interrupt
    ∧ stream_prompts c_def env_c2_late false none
        = (.ok true, { c_def with action := some "X", status := .Interrupt },
           [.genCall .Working, .frame (.responseStart none),
            .frame (.response "Hello" none), .frame (.responseEnd none)])
    ∧ countEnd [Event.genCall .Working, .frame (.responseStart none),
        .frame (.response "Hello" none), .frame (.responseEnd none)] = 1 := by
  refine ⟨?_, ?_, ?_, ?_⟩ <;> decide

/-- C3 counterexample: a fragment stream with no fragments completes
successfully without interruption, yet the trace holds no `responseStart`
at all — only the `responseEnd`. -/
theorem c3_counterexample :
    stream_prompts c_def {} true none
      = (.ok true, c_def, [.genCall .Working, .frame (.responseEnd none)])
    ∧ countStart [Event.genCall .Working, Event.frame (.responseEnd none)] = 0
    ∧ countEnd [Event.genCall .Working, Event.frame (.responseEnd none)] = 1 := by
  refine ⟨?_, ?_, ?_⟩ <;> decide

/-- C3 (amended): a `stream_prompts` call that returns True with no inbound
frame arriving during the call, where at least one fragment carries a
`message` field, emits exactly one `responseStart`, then zero or more
`response` frames, then exactly one `responseEnd`, in that order.  (With no
message-bearing fragment, only the single `responseEnd` is emitted, as the
counterexample shows.) -/
theorem c3_framing_protocol (c0 : IClientData) (env : StreamEnv) (fi : Bool)
    (action : Option String) (c' : IClientData) (evs : List Event)
    (hq : env.quiet)
    (hrun : stream_prompts c0 env fi action = (.ok true, c', evs))
    (hmsg : ∃ ce : ChunkEnv, ChunkItem.chunk ce ∈ env.chunks ∧ ce.message.isSome) :
    ∃ ts : List String,
      framesOf evs = Frame.responseStart action
        :: (ts.map (fun t => Frame.response t action) ++ [Frame.responseEnd action]) := by
  obtain ⟨hqc, hqt, hqp, hqe⟩ := hq
  simp only [stream_prompts] at hrun
  cases hL : stream_loop action env.chunks { c0 with status := .Working } ""
      [.genCall .Working] with
  | err e cL evsL =>
    rw [hL] at hrun
    exact absurd hrun (by simp)
  | earlyFalse cL evsL =>
    rw [hL] at hrun
    exact absurd hrun (by simp)
  | done cL prevL evsL =>
    rw [hL] at hrun
    dsimp only at hrun
    rcases stream_loop_working action env.chunks { c0 with status := .Working } ""
        [.genCall .Working] hqc rfl cL prevL evsL hL with
      ⟨_, _, _, hnomsg⟩ | ⟨_, ts, hfr⟩
    · obtain ⟨ce, hmem, hsome⟩ := hmsg
      have hnone := hnomsg _ hmem
      simp only [ChunkItem.noMessage] at hnone
      rw [hnone] at hsome
      exact absurd hsome (by simp)
    · have hfr' : framesOf evsL = Frame.responseStart action
          :: ts.map (fun t => Frame.response t action) := by
        simpa [framesOf, frameOf] using hfr
      rw [hqt] at hrun
      have htail : ∀ (s1 : Except PyErr Bool × IClientData × List Event),
          (framesOf s1.2.2 = [] ∨ ∃ t0, framesOf s1.2.2 = [Frame.response t0 action]) →
          stream_tail1 fi action env evsL s1 = (.ok true, c', evs) →
          ∃ ts2 : List String,
            framesOf evs = Frame.responseStart action
              :: (ts2.map (fun t => Frame.response t action)
                  ++ [Frame.responseEnd action]) := by
        intro s1 hs1 hmatch
        rcases s1 with ⟨rv1, rc1, revs1⟩
        cases rv1 with
        | error e =>
          simp only [stream_tail1] at hmatch
          exact absurd hmatch (by simp)
        | ok b1 =>
          cases b1 with
          | false =>
            simp only [stream_tail1] at hmatch
            exact absurd hmatch (by simp)
          | true =>
            simp only [stream_tail1] at hmatch
            rcases hend : ensure_ws_send_message rc1 env.endSend
                (.responseEnd action) with ⟨rv2, rc2, revs2⟩
            rw [hend] at hmatch
            cases rv2 with
            | error e =>
              simp only [stream_tail2] at hmatch
              exact absurd hmatch (by simp)
            | ok b2 =>
              cases b2 with
              | false =>
                simp only [stream_tail2] at hmatch
                exact absurd hmatch (by simp)
              | true =>
                have hevs2 : revs2 = [.frame (.responseEnd action)] := by
                  have h5 := ensure_ok_true_evs rc1 env.endSend (.responseEnd action)
                    (by rw [hend])
                  rw [hend] at h5
                  exact h5
                simp only [stream_tail2, Prod.mk.injEq] at hmatch
                rw [← hmatch.2.2, hevs2]
                simp only at hs1
                rcases hs1 with hs | ⟨t0, hs⟩
                · refine ⟨ts, ?_⟩
                  rw [framesOf_append, framesOf_append, hfr', hs]
                  simp [framesOf, frameOf]
                · refine ⟨ts ++ [t0], ?_⟩
                  rw [framesOf_append, framesOf_append, hfr', hs]
                  simp [framesOf, frameOf]
      by_cases hp : prevL = ""
      · rw [if_pos hp] at hrun
        exact htail (.ok true, recv_frames cL [], []) (Or.inl rfl) hrun
      · rw [if_neg hp] at hrun
        refine htail _ ?_ hrun
        rcases ensure_cases (recv_frames cL []) env.prevSend
            (.response prevL action) with hc | ⟨c2, hc | hc | hc⟩ <;> rw [hc]
        · exact Or.inl rfl
        · exact Or.inr ⟨prevL, by simp [framesOf, frameOf]⟩
        · exact Or.inl rfl
        · exact Or.inl rfl

/-- A quiet single-fragment stream delivering "Hello". -/
def env_hello : StreamEnv :=
  { chunks := [.chunk { message := some (.withContent "Hello") }] }

/-- C3 witness. -/
theorem c3_framing_protocol_witness :
    ∃ ts : List String,
      framesOf [Event.genCall .Working,
        Event.frame (.responseStart (some "Welcome")),
        Event.frame (.response "Hello" (some "Welcome")),
        Event.frame (.responseEnd (some "Welcome"))]
        = Frame.responseStart (some "Welcome")
          :: (ts.map (fun t => Frame.response t (some "Welcome"))
              ++ [Frame.responseEnd (some "Welcome")]) :=
  c3_framing_protocol c_def env_hello true (some "Welcome") c_def
    [Event.genCall .Working,
     Event.frame (.responseStart (some "Welcome")),
     Event.frame (.response "Hello" (some "Welcome")),
     Event.frame (.responseEnd (some "Welcome"))]
    ⟨by intro it hit
        rcases List.mem_singleton.mp hit with rfl
        exact ⟨rfl, rfl, rfl⟩,
     rfl, rfl, rfl⟩
    (by decide)
    ⟨{ message := some (.withContent "Hello") }, by decide, by decide⟩

/-- C4 (amended): a fragment whose send fails transiently is carried
forward in full (appended to any earlier backlog), and the next successful
send carries the carried and the new fragment's text concatenated in order
with nothing lost, clearing the carry.  The backlog is not bounded by one
fragment: consecutive transient failures accumulate (see the
counterexample). -/
theorem c4_transient_carry_merge (action : Option String) (c : IClientData)
    (prev t1 t2 : String)
    (hs : c.status = .Responding) (hcl : c.closed = false)
    (hin : c.inClients = true) (ht1 : t1 ≠ "") (ht2 : t2 ≠ "") :
    stream_step action { message := some (.withContent t1), bodyAttempt := .wsOther }
        c prev = .go c (prev ++ t1) []
    ∧ stream_step action { message := some (.withContent t2) } c (prev ++ t1)
        = .go c "" [.frame (.response (prev ++ t1 ++ t2) action)] := by
  have hpre1 : chunk_pre c { message := some (.withContent t1), bodyAttempt := .wsOther }
      = c := by
    simp [chunk_pre, recv_frames]
  have hpre2 : chunk_pre c { message := some (.withContent t2) } = c := by
    simp [chunk_pre, recv_frames]
  have hab : abort_check c = false := by
    simp [abort_check, hs, hcl, hin]
  have hnw : ¬ c.status = ClientStatusEnum.Working := by
    rw [hs]
    intro hcon
    cases hcon
  constructor
  · simp only [stream_step, hpre1, hab, Bool.false_eq_true, if_false, step_start,
      if_neg hnw, chunk_text, step_text, if_neg ht1, recv_frames, List.foldl_nil]
  · simp only [stream_step, hpre2, hab, Bool.false_eq_true, if_false, step_start,
      if_neg hnw, chunk_text, step_text, if_neg ht2, recv_frames, List.foldl_nil,
      List.nil_append]

/-- C4 witness. -/
theorem c4_transient_carry_merge_witness :
    stream_step none { message := some (.withContent "A"), bodyAttempt := .wsOther }
        { c_def with status := .Responding } ""
      = .go { c_def with status := .Responding } ("" ++ "A") []
    ∧ stream_step none { message := some (.withContent "B") }
        { c_def with status := .Responding } ("" ++ "A")
      = .go { c_def with status := .Responding } ""
          [.frame (.response ("" ++ "A" ++ "B") none)] :=
  c4_transient_carry_merge none { c_def with status := .Responding } "" "A" "B"
    rfl rfl rfl (by decide) (by decide)

/-- C4 counterexample: two consecutive transient failures make the unsent
backlog hold both fragments' text at once — two fragments' worth, not at
most one. -/
theorem c4_counterexample :
    stream_loop none
        [.chunk { message := some (.withContent "A"), bodyAttempt := .wsOther },
         .chunk { message := some (.withContent "B"), bodyAttempt := .wsOther }]
        { c_def with status := .Responding } "" []
      = .done { c_def with status := .Responding } "AB" []
    ∧ "AB" = "A" ++ "B"
    ∧ ("AB" : String).length = 2
    ∧ ("A" : String).length = 1 ∧ ("B" : String).length = 1 := by
  refine ⟨?_, ?_, ?_, ?_, ?_⟩ <;> decide

/-- The result of a dispatched handler: the escaping exception if any, the
session state, and the trace of events. -/
abbrev HRes := Except PyErr Unit × IClientData × List Event

/-- `stream_prompts` with its Boolean result discarded, as the handlers use
it (`await self.stream_prompts(...)` with the value ignored). -/
def run_stream (c : IClientData) (env : StreamEnv) (fi : Bool)
    (action : Option String) : HRes :=
  let r := stream_prompts c env fi action
  (r.1.map (fun _ => ()), r.2.1, r.2.2)

/-- Environment of one `_response_from_llm` call: its outcome
(`ConnectionError` on a non-200 response, `ValueError` on a malformed
`message` field, or the response text) and the receiver frames processed
during the `await`. -/
structure RespEnv where
  result : Except PyErr String := .ok ""
  arrivals : List InFrame := []
deriving Repr

/-- `PhotoEditorServer._response_from_llm` as observed by a handler: the
generation request is issued with the current status, the receiver may run
during the `await`, and the outcome is the environment's verdict. -/
def response_from_llm (c : IClientData) (env : RespEnv) :
    Except PyErr String × IClientData × List Event :=
  (env.result, recv_frames c env.arrivals, [.genCall c.status])

/-- Python `str.strip()` (whitespace trimming). -/
def strip (s : String) : String :=
  ⟨((s.data.dropWhile Char.isWhitespace).reverse.dropWhile Char.isWhitespace).reverse⟩

/-- The guard `re.compile("^[0-9]+$").match(results) is not None`. -/
def is_digits (s : String) : Bool :=
  !s.isEmpty && s.data.all (fun ch => ch.isDigit)

/-- `int(results)` for an all-digits string. -/
def toNatD (s : String) : Nat :=
  s.data.foldl (fun n ch => n * 10 + (ch.toNat - 48)) 0

/-- `json.dumps` of a flat numeric setup object. -/
def dumpSetup (l : List (String × Int)) : String :=
  "\x7b" ++ String.intercalate ", "
    (l.map (fun kv => "\"" ++ kv.1 ++ "\": " ++ toString kv.2)) ++ "\x7d"

/-- The change-description loop of `edit_photo`/`crop_rotate`
(lines 497-500): for each adjusted key present in the original setup with a
different value, append `key: from old to new. `. -/
def changes_string (original adjustments : List (String × Int)) : String :=
  adjustments.foldl
    (fun acc kv =>
      match original.lookup kv.1 with
      | some ov =>
        if kv.2 ≠ ov then
          acc ++ kv.1 ++ ": from " ++ toString ov ++ " to " ++ toString kv.2 ++ ". "
        else acc
      | none => acc)
    ""

/-- Environment of one `stream_not_understand` call. -/
structure NUEnv where
  sendNU : EnsureEnv := {}
  stream : StreamEnv := {}
deriving Repr

/-- `PhotoEditorServer.stream_not_understand`: send the `notUnderstand`
action frame (result ignored), then stream the localized not-understood
template. -/
def stream_not_understand (P : Catalog) (c : IClientData) (env : NUEnv) : HRes :=
  match ensure_ws_send_message c env.sendNU (.responseAction "notUnderstand") with
  | (.error e, c, evs) => (.error e, c, evs)
  | (.ok _, c, evs) =>
    let p := get_conversation c c.lang none
    let c := p.2
    let _prompts := get_prompts P c.lang "notUnderstand" [("conversation", p.1)]
    let r2 := run_stream c env.stream true none
    (r2.1, r2.2.1, evs ++ r2.2.2)

/-- Environment of one `switch_lang_by_message` call. -/
structure SwitchLangEnv where
  llm : RespEnv := {}
  sendSwitch : EnsureEnv := {}
  stream : StreamEnv := {}
  notUnderstand : NUEnv := {}
deriving Repr

/-- `PhotoEditorServer.switch_lang_by_message`: classify the last message
into a language intent and dispatch; a non-numeric intent raises
`ValueError`. -/
def switch_lang_by_message (P : Catalog) (c : IClientData)
    (env : SwitchLangEnv) : HRes :=
  match get_last_message c with
  | none => (.error .indexError, c, [])
  | some lm =>
    let _prompts := get_prompts P "en" "switchLanguage" [("last_message", lm)]
    let r := response_from_llm c env.llm
    let evs0 := r.2.2
    let c := r.2.1
    match r.1 with
    | .error e => (.error e, c, evs0)
    | .ok results =>
      if c.status = .Interrupt then
        (.ok (), c, evs0)
      else
        let results := strip results
        if ¬ is_digits results then
          (.error .valueError, c, evs0)
        else
          let intent := toNatD results
          if intent = 1 then
            let c := { c with lang := "zh" }
            match ensure_ws_send_message c env.sendSwitch (.responseAction "switchLang") with
            | (.error e, c, evs1) => (.error e, c, evs0 ++ evs1)
            | (.ok _, c, evs1) =>
              let _p2 := get_prompts P "zh" "langSwitched" [("lang", "zh")]
              let r2 := run_stream c env.stream true none
              (r2.1, r2.2.1, evs0 ++ evs1 ++ r2.2.2)
          else if intent = 2 then
            let c := { c with lang := "en" }
            match ensure_ws_send_message c env.sendSwitch (.responseAction "switchLang") with
            | (.error e, c, evs1) => (.error e, c, evs0 ++ evs1)
            | (.ok _, c, evs1) =>
              let _p2 := get_prompts P "en" "langSwitched" [("lang", "en")]
              let r2 := run_stream c env.stream true none
              (r2.1, r2.2.1, evs0 ++ evs1 ++ r2.2.2)
          else if intent = 3 then
            match get_last_message c with
            | none => (.error .indexError, c, evs0)
            | some lm2 =>
              let _p2 := get_prompts P c.lang "langNotSupported" [("last_message", lm2)]
              let r2 := run_stream c env.stream true none
              (r2.1, r2.2.1, evs0 ++ r2.2.2)
          else if intent = 4 then
            match get_last_message c with
            | none => (.error .indexError, c, evs0)
            | some lm2 =>
              let _p2 := get_prompts P c.lang "langReAsk" [("last_message", lm2)]
              let r2 := run_stream c env.stream true none
              (r2.1, r2.2.1, evs0 ++ r2.2.2)
          else
            let r2 := stream_not_understand P c env.notUnderstand
            (r2.1, r2.2.1, evs0 ++ r2.2.2)

/-- Environment of one `edit_photo` / `crop_rotate` call; `parsed` is the
outcome of `json.loads` on the (prefixed) intent result, `none` standing
for `JSONDecodeError`. -/
structure EditEnv where
  llm : RespEnv := {}
  parsed : Option (List (String × Int)) := none
  sendSetup : EnsureEnv := {}
  stream : StreamEnv := {}
  notUnderstand : NUEnv := {}
deriving Repr

/-- `PhotoEditorServer.edit_photo`: read the brightness/contrast/saturation
setup (raising `ValueError` on missing chat details or setup and `KeyError`
on a missing key), run the intent generation, parse the adjustments (a
decode failure falls back to the not-understood flow), push the edited
setup, and stream the edited/not-edited message. -/
def edit_photo (P : Catalog) (c : IClientData) (env : EditEnv) : HRes :=
  match c.chatDetails with
  | none => (.error .valueError, c, [])
  | some cd =>
    match cd.setup with
    | none => (.error .valueError, c, [])
    | some setup =>
      match setup.lookup "brightness", setup.lookup "contrast",
          setup.lookup "saturation" with
      | some b, some ct, some sa =>
        let original : List (String × Int) :=
          [("brightness", b), ("contrast", ct), ("saturation", sa)]
        let p := get_conversation c "en" none
        let c := p.2
        let _prompts := get_prompts P "en" "editImage"
          [("current_setup", dumpSetup original), ("conversation", p.1)]
        let r := response_from_llm c env.llm
        let evs0 := r.2.2
        let c := r.2.1
        match r.1 with
        | .error e => (.error e, c, evs0)
        | .ok results =>
          if c.status = .Interrupt then
            (.ok (), c, evs0)
          else
            let _results := strip results
            match env.parsed with
            | none =>
              let r2 := stream_not_understand P c env.notUnderstand
              (r2.1, r2.2.1, evs0 ++ r2.2.2)
            | some adjustments =>
              match ensure_ws_send_message c env.sendSetup (.responseAction "editImage") with
              | (.error e, c, evs1) => (.error e, c, evs0 ++ evs1)
              | (.ok _, c, evs1) =>
                if c.status = .Interrupt then
                  (.ok (), c, evs0 ++ evs1)
                else
                  let changes := changes_string original adjustments
                  let _p2 :=
                    if changes ≠ "" then
                      get_prompts P c.lang "imageEdited" [("changes", changes)]
                    else
                      get_prompts P c.lang "imageNotEdited" []
                  let r2 := run_stream c env.stream true none
                  (r2.1, r2.2.1, evs0 ++ evs1 ++ r2.2.2)
      | _, _, _ => (.error .keyError, c, [])

/-- `PhotoEditorServer.crop_rotate`: as `edit_photo` but over the
crop/rotate setup keys. -/
def crop_rotate (P : Catalog) (c : IClientData) (env : EditEnv) : HRes :=
  match c.chatDetails with
  | none => (.error .valueError, c, [])
  | some cd =>
    match cd.setup with
    | none => (.error .valueError, c, [])
    | some setup =>
      match setup.lookup "crop", setup.lookup "rotate" with
      | some cr, some ro =>
        let original : List (String × Int) := [("crop", cr), ("rotate", ro)]
        let p := get_conversation c "en" none
        let c := p.2
        let _prompts := get_prompts P "en" "rotateCrop"
          [("current_setup", dumpSetup original), ("conversation", p.1)]
        let r := response_from_llm c env.llm
        let evs0 := r.2.2
        let c := r.2.1
        match r.1 with
        | .error e => (.error e, c, evs0)
        | .ok results =>
          if c.status = .Interrupt then
            (.ok (), c, evs0)
          else
            let _results := strip results
            match env.parsed with
            | none =>
              let r2 := stream_not_understand P c env.notUnderstand
              (r2.1, r2.2.1, evs0 ++ r2.2.2)
            | some adjustments =>
              match ensure_ws_send_message c env.sendSetup (.responseAction "editImage") with
              | (.error e, c, evs1) => (.error e, c, evs0 ++ evs1)
              | (.ok _, c, evs1) =>
                if c.status = .Interrupt then
                  (.ok (), c, evs0 ++ evs1)
                else
                  let changes := changes_string original adjustments
                  let _p2 :=
                    if changes ≠ "" then
                      get_prompts P c.lang "imageEdited" [("changes", changes)]
                    else
                      get_prompts P c.lang "imageNotEdited" []
                  let r2 := run_stream c env.stream true none
                  (r2.1, r2.2.1, evs0 ++ evs1 ++ r2.2.2)
      | _, _ => (.error .keyError, c, [])

/-- `PhotoEditorServer.describe_image`: stream a description of the loaded
images (raising `ValueError` without images, `IndexError` on a template
with no messages). -/
def describe_image (P : Catalog) (c : IClientData) (env : StreamEnv) : HRes :=
  match c.images with
  | none => (.error .valueError, c, [])
  | some imgs =>
    let p := get_conversation c c.lang none
    let c := p.2
    let prompts := get_prompts P c.lang "describeImage" [("conversation", p.1)]
    match prompts.messages with
    | [] => (.error .indexError, c, [])
    | m :: ms =>
      let _prompts2 := { prompts with messages := { m with images := some imgs } :: ms }
      run_stream c env true none

/-- `PhotoEditorServer.create_welcome_message`. -/
def create_welcome_message (P : Catalog) (c : IClientData)
    (env : StreamEnv) : HRes :=
  let _prompts := get_prompts P c.lang "welcome" []
  run_stream c env true (some "Welcome")

/-- `PhotoEditorServer.create_image_opened_message` (raises `ValueError`
when no file name was given). -/
def create_image_opened_message (P : Catalog) (c : IClientData)
    (env : StreamEnv) : HRes :=
  match c.fileName with
  | none => (.error .valueError, c, [])
  | some fn =>
    let _prompts := get_prompts P c.lang "imageOpened" [("file_name", fn)]
    run_stream c env true (some "ImageOpened")

/-- `PhotoEditorServer.create_auto_image_desc_message` (raises `ValueError`
without images, `IndexError` on a template with no messages). -/
def create_auto_image_desc_message (P : Catalog) (c : IClientData)
    (env : StreamEnv) : HRes :=
  match c.images with
  | none => (.error .valueError, c, [])
  | some imgs =>
    let prompts := get_prompts P c.lang "autoDescription" []
    match prompts.messages with
    | [] => (.error .indexError, c, [])
    | m :: ms =>
      let _prompts2 := { prompts with messages := { m with images := some imgs } :: ms }
      run_stream c env true (some "AutoImageDesc")

/-- Environment of one `chat_in_blank_page` call. -/
structure ChatBlankEnv where
  llm : RespEnv := {}
  sendOpen : EnsureEnv := {}
  streamOpen : StreamEnv := {}
  streamSave : StreamEnv := {}
  switchLang : SwitchLangEnv := {}
  streamAbout : StreamEnv := {}
  streamCasual : StreamEnv := {}
  notUnderstand : NUEnv := {}
deriving Repr

/-- The intent dispatch of `chat_in_blank_page` (lines 726-767), run after
the intent generation returned `results` with the session in state `c`; its
trace excludes the generation request already recorded by the caller. -/
def chat_in_blank_page_k (P : Catalog) (env : ChatBlankEnv) (c : IClientData)
    (results : String) : HRes :=
  if c.status = .Interrupt then
    (.ok (), c, [])
  else
    let results := strip results
    if ¬ is_digits results then
      (.error .valueError, c, [])
    else
      let intent := toNatD results
      if intent = 1 then
        match ensure_ws_send_message c env.sendOpen (.responseAction "openFile") with
        | (.error e, c, evs1) => (.error e, c, evs1)
        | (.ok _, c, evs1) =>
          let _p2 := get_prompts P c.lang "openFile" []
          let r2 := run_stream c env.streamOpen true none
          (r2.1, r2.2.1, evs1 ++ r2.2.2)
      else if intent = 2 then
        let _p2 := get_prompts P c.lang "saveFileNoFile" []
        run_stream c env.streamSave true none
      else if intent = 3 then
        switch_lang_by_message P c env.switchLang
      else if intent = 4 then
        let p2 := get_conversation c c.lang none
        let c := p2.2
        let _p3 := get_prompts P c.lang "about" [("conversation", p2.1)]
        run_stream c env.streamAbout true none
      else if intent = 5 then
        let p2 := get_conversation c c.lang none
        let c := p2.2
        let _p3 := get_prompts P c.lang "casualChat" [("conversation", p2.1)]
        run_stream c env.streamCasual true none
      else
        stream_not_understand P c env.notUnderstand

/-- `PhotoEditorServer.chat_in_blank_page`: set status to Working, classify
the conversation into an intent (a non-numeric result raises `ValueError`),
and dispatch on intents 1-5, falling back to the not-understood flow. -/
def chat_in_blank_page (P : Catalog) (c : IClientData)
    (env : ChatBlankEnv) : HRes :=
  let p := get_conversation c c.lang none
  let c := p.2
  let _prompts := get_prompts P "en" "newFile" [("conversation", p.1)]
  let c := { c with status := .Working }
  let r := response_from_llm c env.llm
  let evs0 := r.2.2
  let c := r.2.1
  match r.1 with
  | .error e => (.error e, c, evs0)
  | .ok results =>
    let r2 := chat_in_blank_page_k P env c results
    (r2.1, r2.2.1, evs0 ++ r2.2.2)

/-- Environment of one `chat_in_editor` call. -/
structure ChatEditorEnv where
  llm : RespEnv := {}
  sendOpen : EnsureEnv := {}
  streamOpen : StreamEnv := {}
  sendSave : EnsureEnv := {}
  streamSave : StreamEnv := {}
  switchLang : SwitchLangEnv := {}
  editPhoto : EditEnv := {}
  cropRotate : EditEnv := {}
  streamDescribe : StreamEnv := {}
  streamAbout : StreamEnv := {}
  streamCasual : StreamEnv := {}
  notUnderstand : NUEnv := {}
deriving Repr

/-- The intent dispatch of `chat_in_editor` (lines 783-836), run after the
intent generation returned `results` with the session in state `c`; its
trace excludes the generation request already recorded by the caller. -/
def chat_in_editor_k (P : Catalog) (env : ChatEditorEnv) (c : IClientData)
    (results : String) : HRes :=
  if c.status = .Interrupt then
    (.ok (), c, [])
  else
    let results := strip results
    if ¬ is_digits results then
      (.error .valueError, c, [])
    else
      let intent := toNatD results
      if intent = 1 then
        match ensure_ws_send_message c env.sendOpen (.responseAction "openFile") with
        | (.error e, c, evs1) => (.error e, c, evs1)
        | (.ok _, c, evs1) =>
          let _p2 := get_prompts P c.lang "openFile" []
          let r2 := run_stream c env.streamOpen true none
          (r2.1, r2.2.1, evs1 ++ r2.2.2)
      else if intent = 2 then
        match ensure_ws_send_message c env.sendSave (.responseAction "saveFile") with
        | (.error e, c, evs1) => (.error e, c, evs1)
        | (.ok _, c, evs1) =>
          let _p2 := get_prompts P c.lang "saveFile" []
          let r2 := run_stream c env.streamSave true none
          (r2.1, r2.2.1, evs1 ++ r2.2.2)
      else if intent = 3 then
        switch_lang_by_message P c env.switchLang
      else if intent = 4 then
        edit_photo P c env.editPhoto
      else if intent = 5 then
        crop_rotate P c env.cropRotate
      else if intent = 7 then
        describe_image P c env.streamDescribe
      else if intent = 8 then
        let p2 := get_conversation c c.lang none
        let c := p2.2
        let _p3 := get_prompts P c.lang "about" [("conversation", p2.1)]
        run_stream c env.streamAbout true none
      else if intent = 9 then
        let p2 := get_conversation c c.lang none
        let c := p2.2
        let _p3 := get_prompts P c.lang "casualChat" [("conversation", p2.1)]
        run_stream c env.streamCasual true none
      else
        stream_not_understand P c env.notUnderstand

/-- `PhotoEditorServer.chat_in_editor`: set status to Working, classify the
conversation into an intent (a non-numeric result raises `ValueError`), and
dispatch on intents 1-5, 7-9, falling back to the not-understood flow. -/
def chat_in_editor (P : Catalog) (c : IClientData)
    (env : ChatEditorEnv) : HRes :=
  let p := get_conversation c c.lang none
  let c := p.2
  let _prompts := get_prompts P "en" "chatEditor" [("conversation", p.1)]
  let c := { c with status := .Working }
  let r := response_from_llm c env.llm
  let evs0 := r.2.2
  let c := r.2.1
  match r.1 with
  | .error e => (.error e, c, evs0)
  | .ok results =>
    let r2 := chat_in_editor_k P env c results
    (r2.1, r2.2.1, evs0 ++ r2.2.2)

/-- Environment of one worker iteration: each branch of the dispatcher is
given its own handler environment (only the branch actually taken consumes
its part). -/
structure DispatchEnv where
  welcome : StreamEnv := {}
  imageOpened : StreamEnv := {}
  chatBlank : ChatBlankEnv := {}
  chatEditor : ChatEditorEnv := {}
  autoDesc : StreamEnv := {}
deriving Repr

/-- Python truthiness of the stored action value. -/
def truthy_action : Option String → Bool
  | some s => !s.isEmpty
  | none => false

/-- One iteration of the `ws_llm_worker` loop body (lines 856-877): if the
pending action is truthy, clear it and dispatch on its value; an
unrecognized value falls through with nothing done. -/
def ws_worker_iter (P : Catalog) (c : IClientData) (env : DispatchEnv) : HRes :=
  if truthy_action c.action then
    let data := c.action.getD ""
    let c := { c with action := none }
    if data = "Welcome" then
      create_welcome_message P c env.welcome
    else if data = "ImageOpened" then
      create_image_opened_message P c env.imageOpened
    else if data = "Chat" ∧ c.chatDetails.isSome then
      match c.chatDetails with
      | some cd =>
        if cd.page = "blank" then
          chat_in_blank_page P c env.chatBlank
        else if cd.page = "editor" then
          chat_in_editor P c env.chatEditor
        else
          (.ok (), c, [])
      | none => (.ok (), c, [])
    else if data = "AutoImageDesc" then
      create_auto_image_desc_message P c env.autoDesc
    else
      (.ok (), c, [])
  else
    (.ok (), c, [])

/-- Environment of one worker-loop turn: the transport flags observed at
the `while` condition, the dispatch environment, and the receiver frames
processed during the `asyncio.sleep(.01)`. -/
structure WorkerStep where
  closedNow : Bool := false
  inClientsNow : Bool := true
  dispatch : DispatchEnv := {}
  sleepArrivals : List InFrame := []
deriving Repr

/-- The `ws_llm_worker` loop over a finite window of turns: it exits
normally only when the connection closed or the session was deregistered;
an exception raised by a dispatched handler propagates, terminating the
loop (and, through the enclosing `asyncio.TaskGroup` of `ws_runtime`, the
whole Session Runtime).  An exhausted window means the loop is still
running. -/
def ws_llm_worker (P : Catalog) :
    List WorkerStep → IClientData → Except PyErr Unit × IClientData × List Event
  | [], c => (.ok (), c, [])
  | w :: rest, c =>
    let c := { c with closed := c.closed || w.closedNow,
                      inClients := c.inClients && w.inClientsNow }
    if c.closed ∨ ¬ c.inClients then
      (.ok (), c, [])
    else
      match ws_worker_iter P c w.dispatch with
      | (.error e, c, evs) => (.error e, c, evs)
      | (.ok _, c, evs) =>
        let c := recv_frames c w.sleepArrivals
        let r := ws_llm_worker P rest c
        (r.1, r.2.1, evs ++ r.2.2)

/-- The fragment loop only appends to the accumulated trace. -/
theorem stream_loop_evs_prefix (action : Option String) :
    ∀ (items : List ChunkItem) (c : IClientData) (prev : String) (evs : List Event),
      ∃ t, (stream_loop action items c prev evs).evs = evs ++ t := by
  intro items
  induction items with
  | nil =>
    intro c prev evs
    exact ⟨[], by simp [stream_loop, LoopOut.evs]⟩
  | cons it rest ih =>
    intro c prev evs
    cases it with
    | genFail e arr => exact ⟨[], by simp [stream_loop, LoopOut.evs]⟩
    | chunk ce =>
      simp only [stream_loop]
      cases hcs : stream_step action ce c prev with
      | go c2 prev2 evs2 =>
        obtain ⟨t, ht⟩ := ih c2 prev2 (evs ++ evs2)
        exact ⟨evs2 ++ t, by rw [ht]; simp⟩
      | halt c2 evs2 => exact ⟨evs2, rfl⟩
      | raise e c2 evs2 => exact ⟨evs2, rfl⟩

/-- The tail of `stream_prompts` only appends to the loop's trace. -/
theorem stream_tail1_evs_prefix (fi : Bool) (action : Option String)
    (env : StreamEnv) (evsL : List Event)
    (s1 : Except PyErr Bool × IClientData × List Event) :
    ∃ t, (stream_tail1 fi action env evsL s1).2.2 = evsL ++ t := by
  rcases s1 with ⟨rv, rc, revs⟩
  cases rv with
  | error e => exact ⟨revs, rfl⟩
  | ok b =>
    cases b with
    | false => exact ⟨revs, rfl⟩
    | true =>
      simp only [stream_tail1]
      rcases hend : ensure_ws_send_message rc env.endSend
          (.responseEnd action) with ⟨rv2, rc2, revs2⟩
      cases rv2 with
      | error e => exact ⟨revs ++ revs2, by simp [stream_tail2]⟩
      | ok b2 =>
        cases b2 with
        | false => exact ⟨revs ++ revs2, by simp [stream_tail2]⟩
        | true => exact ⟨revs ++ revs2, by simp [stream_tail2]⟩

/-- Every `stream_prompts` trace starts with the generation request, issued
at status Working. -/
theorem stream_prompts_evs_head (c : IClientData) (env : StreamEnv)
    (fi : Bool) (action : Option String) :
    ∃ t, (stream_prompts c env fi action).2.2 = Event.genCall .Working :: t := by
  have hpre := stream_loop_evs_prefix action env.chunks
    { c with status := .Working } "" [.genCall .Working]
  simp only [stream_prompts]
  cases hL : stream_loop action env.chunks { c with status := .Working } ""
      [.genCall .Working] with
  | err e cL evsL =>
    rw [hL] at hpre
    obtain ⟨t, ht⟩ := hpre
    exact ⟨t, by simpa [LoopOut.evs] using ht⟩
  | earlyFalse cL evsL =>
    rw [hL] at hpre
    obtain ⟨t, ht⟩ := hpre
    exact ⟨t, by simpa [LoopOut.evs] using ht⟩
  | done cL prevL evsL =>
    rw [hL] at hpre
    obtain ⟨t, ht⟩ := hpre
    simp only [LoopOut.evs] at ht
    obtain ⟨t2, ht2⟩ := stream_tail1_evs_prefix fi action env evsL
      (if prevL = "" then
        ((.ok true : Except PyErr Bool), recv_frames cL env.tailArrivals, ([] : List Event))
      else
        ensure_ws_send_message (recv_frames cL env.tailArrivals) env.prevSend
          (.response prevL action))
    exact ⟨t ++ t2, by rw [ht2, ht]; simp⟩

/-- `run_stream` has the same trace as `stream_prompts`. -/
theorem run_stream_evs (c : IClientData) (env : StreamEnv) (fi : Bool)
    (action : Option String) :
    (run_stream c env fi action).2.2 = (stream_prompts c env fi action).2.2 := rfl

/-- `get_conversation` never changes the `closed` flag. -/
theorem get_conversation_closed (c : IClientData) (lang : String)
    (rn : Option RoleNames) : (get_conversation c lang rn).2.closed = c.closed := by
  cases hcd : c.chatDetails with
  | none => simp [get_conversation, hcd]
  | some cd =>
    cases hcv : cd.conversation with
    | none => simp [get_conversation, hcd, hcv]
    | some s => simp [get_conversation, hcd, hcv]

/-- `ensure_ws_send_message` over the default environment on an open
connection: delivered, no state change. -/
theorem ensure_delivered (c : IClientData) (f : Frame) (hcl : c.closed = false) :
    ensure_ws_send_message c {} f = (.ok true, c, [.frame f]) := by
  simp [ensure_ws_send_message, hcl, recv_frames]
  rw [← hcl]

/-- `stream_prompts` over the default (empty, quiet, delivered) environment
on an open connection: success with just the request and the
`responseEnd`. -/
theorem stream_prompts_empty (c : IClientData) (fi : Bool)
    (action : Option String) (hcl : c.closed = false) :
    stream_prompts c {} fi action
      = (.ok true, flag_idle_update fi { c with status := .Working },
         [.genCall .Working, .frame (.responseEnd action)]) := by
  have hcl2 : ({ c with status := ClientStatusEnum.Working } : IClientData).closed
      = false := hcl
  simp [stream_prompts, stream_loop, stream_tail1, stream_tail2, recv_frames,
    ensure_delivered _ _ hcl2]

/-- `stream_not_understand` over the default environment on an open
connection: the `notUnderstand` action frame, then a successful stream. -/
theorem stream_not_understand_default (P : Catalog) (c : IClientData)
    (hcl : c.closed = false) :
    stream_not_understand P c {}
      = (.ok (), flag_idle_update true
          { (get_conversation c c.lang none).2 with status := .Working },
         [.frame (.responseAction "notUnderstand"), .genCall .Working,
          .frame (.responseEnd none)]) := by
  have hcl2 : (get_conversation c c.lang none).2.closed = false := by
    rw [get_conversation_closed]
    exact hcl
  simp [stream_not_understand, ensure_delivered _ _ hcl, run_stream,
    stream_prompts_empty _ _ _ hcl2, Except.map]

/-- Shape of a handler trace: nothing happened before an exception, or the
first event is a generation request issued at status Working. -/
def head_gen_working (evs : List Event) : Prop :=
  evs = [] ∨ ∃ t, evs = Event.genCall .Working :: t

theorem create_welcome_message_evs (P : Catalog) (c : IClientData)
    (env : StreamEnv) : head_gen_working (create_welcome_message P c env).2.2 :=
  Or.inr (stream_prompts_evs_head c env true (some "Welcome"))

theorem create_image_opened_message_evs (P : Catalog) (c : IClientData)
    (env : StreamEnv) : head_gen_working (create_image_opened_message P c env).2.2 := by
  cases hfn : c.fileName with
  | none => exact Or.inl (by simp [create_image_opened_message, hfn])
  | some fn =>
    right
    have := stream_prompts_evs_head c env true (some "ImageOpened")
    simpa [create_image_opened_message, hfn, run_stream] using this

theorem create_auto_image_desc_message_evs (P : Catalog) (c : IClientData)
    (env : StreamEnv) : head_gen_working (create_auto_image_desc_message P c env).2.2 := by
  cases him : c.images with
  | none => exact Or.inl (by simp [create_auto_image_desc_message, him])
  | some imgs =>
    cases hm : (get_prompts P c.lang "autoDescription" []).messages with
    | nil => exact Or.inl (by simp [create_auto_image_desc_message, him, hm])
    | cons m ms =>
      right
      have := stream_prompts_evs_head c env true (some "AutoImageDesc")
      simpa [create_auto_image_desc_message, him, hm, run_stream] using this

theorem chat_in_blank_page_evs (P : Catalog) (c : IClientData)
    (env : ChatBlankEnv) :
    ∃ t, (chat_in_blank_page P c env).2.2 = Event.genCall .Working :: t := by
  simp only [chat_in_blank_page, response_from_llm]
  split
  · exact ⟨_, rfl⟩
  · exact ⟨_, rfl⟩

theorem chat_in_editor_evs (P : Catalog) (c : IClientData)
    (env : ChatEditorEnv) :
    ∃ t, (chat_in_editor P c env).2.2 = Event.genCall .Working :: t := by
  simp only [chat_in_editor, response_from_llm]
  split
  · exact ⟨_, rfl⟩
  · exact ⟨_, rfl⟩

/-- Every dispatch of the worker either performs no generation at all or
issues its first generation request at status Working. -/
theorem ws_worker_iter_evs (P : Catalog) (c : IClientData) (env : DispatchEnv) :
    head_gen_working (ws_worker_iter P c env).2.2 := by
  simp only [ws_worker_iter]
  split
  · split
    · exact create_welcome_message_evs P _ env.welcome
    · split
      · exact create_image_opened_message_evs P _ env.imageOpened
      · split
        · split
          · split
            · exact Or.inr (chat_in_blank_page_evs P _ env.chatBlank)
            · split
              · exact Or.inr (chat_in_editor_evs P _ env.chatEditor)
              · exact Or.inl rfl
          · exact Or.inl rfl
        · split
          · exact create_auto_image_desc_message_evs P _ env.autoDesc
          · exact Or.inl rfl
  · exact Or.inl rfl

/-- The status carried by the first generation request of a trace. -/
def first_gen_status : List Event → Option ClientStatusEnum
  | [] => none
  | Event.genCall st :: _ => some st
  | Event.frame _ :: rest => first_gen_status rest

/-- C5 (amended): the first generation request of every dispatched handler
is issued at status Working — the chat handlers set Working right before
their intent call and `stream_prompts` sets Working on entry.  Nested
handlers reached after the intent call, however, issue their request at
whatever status the session then has, which can be NewTask (see the
counterexample). -/
theorem c5_first_generation_at_working (P : Catalog) (c : IClientData)
    (env : DispatchEnv) (st : ClientStatusEnum)
    (h : first_gen_status (ws_worker_iter P c env).2.2 = some st) :
    st = ClientStatusEnum.Working := by
  rcases ws_worker_iter_evs P c env with h0 | ⟨t, h0⟩
  · rw [h0] at h
    exact absurd h (by simp [first_gen_status])
  · rw [h0] at h
    simp only [first_gen_status] at h
    exact (Option.some.inj h).symm

/-- A pending Welcome action on a fresh session. -/
def c5_welcome_client : IClientData :=
  { c_def with status := .NewTask, action := some "Welcome" }

/-- C5 witness. -/
theorem c5_first_generation_at_working_witness :
    first_gen_status (ws_worker_iter [] c5_welcome_client {}).2.2 = some .Working
    ∧ ClientStatusEnum.Working = .Working :=
  ⟨by decide,
   c5_first_generation_at_working [] c5_welcome_client {} .Working (by decide)⟩

/-- Editor chat details with a numeric setup. -/
def c5_chat_details : IClientChatDetails :=
  { page := "editor", messages := [{ role := "user", content := "brighter" }],
    setup := some [("brightness", 0), ("contrast", 0), ("saturation", 0)] }

/-- Session with a pending Chat action on the editor page. -/
def c5_client : IClientData :=
  { c_def with
      status := .NewTask, action := some "Chat",
      chatDetails := some c5_chat_details }

/-- The intent call answers "4" (edit photo) while two actions arrive
during its await — Working becomes Interrupt, then NewTask — and the
nested `edit_photo` generation then fails at the backend. -/
def c5_env : DispatchEnv :=
  { chatEditor :=
      { llm := { result := .ok "4", arrivals := [af_x, af_x] },
        editPhoto := { llm := { result := .error .connectionError } } } }

/-- The chat details after the conversation string has been cached. -/
def c5_after_details : IClientChatDetails :=
  { c5_chat_details with conversation := some "User: ```brighter```" }

/-- The session state when the failing nested generation was issued. -/
def c5_after : IClientData :=
  { c_def with
      action := some "X", status := .NewTask,
      chatDetails := some c5_after_details }

/-- C5 counterexample: two actions arriving during the intent call drive
the status Working → Interrupt → NewTask; the Interrupt check passes (the
status is NewTask, not Interrupt) and the nested `edit_photo` issues its
generation request while the status is still NewTask — no NewTask → Working
transition happened for it. -/
theorem c5_counterexample :
    ws_worker_iter [] c5_client c5_env
      = (.error .connectionError, c5_after,
         [.genCall .Working, .genCall .NewTask])
    ∧ Event.genCall .NewTask ∈ (ws_worker_iter [] c5_client c5_env).2.2 := by
  refine ⟨?_, ?_⟩ <;> decide

/-- Blank-page chat details. -/
def c1_chat_details : IClientChatDetails :=
  { page := "blank", messages := [{ role := "user", content := "hi" }] }

/-- Session with a pending Chat action on the blank page. -/
def c1_client : IClientData :=
  { c_def with
      status := .NewTask, action := some "Chat",
      chatDetails := some c1_chat_details }

/-- One worker turn whose intent generation answers the non-numeric
"hello". -/
def c1_step : WorkerStep :=
  { dispatch := { chatBlank := { llm := { result := .ok "hello" } } } }

/-- The chat details after the conversation string has been cached. -/
def c1_after_details : IClientChatDetails :=
  { c1_chat_details with conversation := some "User: ```hi```" }

/-- The session state at the uncaught `ValueError`. -/
def c1_after : IClientData :=
  { c_def with status := .Working, chatDetails := some c1_after_details }

/-- C1 counterexample: the backend answers "hello" to the intent prompt;
`chat_in_blank_page` raises `ValueError` (line 736), nothing in
`ws_llm_worker` catches it, and the loop terminates with the exception
while the connection is still open — the `asyncio.TaskGroup` of
`ws_runtime` then cancels the receiver, ending the whole session. -/
theorem c1_counterexample :
    c1_client.closed = false
    ∧ ws_llm_worker [] [c1_step] c1_client
        = (.error .valueError, c1_after, [.genCall .Working]) := by
  refine ⟨?_, ?_⟩ <;> decide

/-- C1 (amended): an unrecognized numeric intent does fall back to the
not-understood flow without raising: the handler returns normally and the
`notUnderstand` action frame is sent.  (Non-numeric intents,
`ConnectionError` from the backend and missing fileName/images/chatDetails
instead raise and terminate the Session Runtime, as the counterexample
shows.) -/
theorem c1_unknown_intent_fallback (P : Catalog) (c : IClientData) (r : String)
    (hcl : c.closed = false) (hd : is_digits (strip r) = true)
    (h1 : toNatD (strip r) ≠ 1) (h2 : toNatD (strip r) ≠ 2)
    (h3 : toNatD (strip r) ≠ 3) (h4 : toNatD (strip r) ≠ 4)
    (h5 : toNatD (strip r) ≠ 5) :
    (chat_in_blank_page P c { llm := { result := .ok r } }).1 = .ok ()
    ∧ Event.frame (.responseAction "notUnderstand")
        ∈ (chat_in_blank_page P c { llm := { result := .ok r } }).2.2 := by
  have hcl2 : ({ (get_conversation c c.lang none).2 with
      status := ClientStatusEnum.Working } : IClientData).closed = false := by
    show (get_conversation c c.lang none).2.closed = false
    rw [get_conversation_closed]
    exact hcl
  have hnu := stream_not_understand_default P
    { (get_conversation c c.lang none).2 with status := .Working } hcl2
  dsimp only at hnu
  constructor <;>
    simp [chat_in_blank_page, chat_in_blank_page_k, response_from_llm,
      recv_frames, hd, h1, h2, h3, h4, h5, hnu]

/-- C1 witness. -/
theorem c1_unknown_intent_fallback_witness :
    is_digits (strip "6") = true
    ∧ (chat_in_blank_page [] c1_client { llm := { result := .ok "6" } }).1 = .ok ()
    ∧ Event.frame (.responseAction "notUnderstand")
        ∈ (chat_in_blank_page [] c1_client { llm := { result := .ok "6" } }).2.2 :=
  ⟨by decide,
   (c1_unknown_intent_fallback [] c1_client "6" rfl (by decide) (by decide)
     (by decide) (by decide) (by decide) (by decide)).1,
   (c1_unknown_intent_fallback [] c1_client "6" rfl (by decide) (by decide)
     (by decide) (by decide) (by decide) (by decide)).2⟩

/-- A non-null but falsy pending action. -/
def c10_falsy : IClientData := { c_def with status := .NewTask, action := some "" }

/-- A truthy pending action matching no dispatcher branch. -/
def c10_bogus : IClientData :=
  { c_def with status := .NewTask, action := some "Bogus" }

/-- C10 counterexample: the worker checks Python truthiness, not
non-nullness — a pending action `""` is non-null but falsy, so the
iteration neither clears nor dispatches it. -/
theorem c10_counterexample :
    ws_worker_iter [] c10_falsy {} = (.ok (), c10_falsy, [])
    ∧ c10_falsy.action = some ""
    ∧ c10_falsy.action ≠ none := by
  refine ⟨?_, ?_, ?_⟩ <;> decide

/-- C10 (amended): a truthy pending action is cleared before dispatch; if
its value matches none of Welcome / ImageOpened / AutoImageDesc /
Chat-with-truthy-chatDetails, the iteration does nothing else: no outbound
frame, no generation, and the status is left unchanged (it stays NewTask
rather than returning to Idle). -/
theorem c10_unmatched_action_dropped (P : Catalog) (c : IClientData)
    (env : DispatchEnv) (a : String)
    (ha : c.action = some a) (hne : a ≠ "")
    (hw : a ≠ "Welcome") (hio : a ≠ "ImageOpened") (had : a ≠ "AutoImageDesc")
    (hch : ¬ (a = "Chat" ∧ c.chatDetails.isSome = true)) :
    ws_worker_iter P c env = (.ok (), { c with action := none }, []) := by
  have hta : truthy_action (some a) = true := by
    simp only [truthy_action]
    cases h : a.isEmpty
    · rfl
    · exact absurd ((String.isEmpty_iff a).mp h) hne
  simp [ws_worker_iter, ha, hta, hw, hio, had, hch]

/-- C10 witness. -/
theorem c10_unmatched_action_dropped_witness :
    ws_worker_iter [] c10_bogus {}
      = (.ok (), { c10_bogus with action := none }, []) :=
  c10_unmatched_action_dropped [] c10_bogus {} "Bogus" rfl (by decide)
    (by decide) (by decide) (by decide) (by decide)

end PhotoEditor
